import Mathlib

/-!
Verification of the launcher runtime-configuration engine of
`intel_extension_for_pytorch/cpu/launch/launcher_base.py`.

The Python class `Launcher` is embedded shallowly:

* the mutable instance attributes `library_paths`, `environ_set` and
  `ld_preload` form the state record `EnvState`;
* the ambient process environment is a read-only map `String → Option String`;
* the filesystem (as observed through `glob.glob` on a concrete, wildcard-free
  pattern) is a read-only predicate `String → Bool` telling whether a path
  exists;
* every `self.verbose(level, msg)` call on the happy path uses a literal level
  in the set handled by the logger dictionary, so logging is modelled as a
  write-only trace of `(level, message)` pairs returned next to the state;
* Python `str` values are Lean `String`s, and `str.endswith` is modelled by
  list-of-characters suffix testing.

Python peculiarities that matter to the theorems are kept: dictionary
assignment preserves insertion order and overwrites in place, and the
`list.remove`-inside-`for` idiom of the preload cleanup is reproduced with its
exact index semantics (an iteration index that is not adjusted when the list
shrinks).
-/

namespace Launch

/-- Python `str.endswith`, modelled on character lists. -/
def pyEndsWith (s suf : String) : Bool :=
  suf.data.isSuffixOf s.data

/-- Python `str.lower` restricted to ASCII, which is all the launcher compares. -/
def pyToLower (s : String) : String :=
  String.mk (s.data.map Char.toLower)

/-- Python `repr` of a list of strings, as rendered inside an f-string. -/
def pyStrListRepr (l : List String) : String :=
  "[" ++ String.intercalate ", " (l.map (fun x => "\x27" ++ x ++ "\x27")) ++ "]"

/-- Python `os.getenv(name, "")` over the ambient environment map. -/
def pyGetenv (env : String → Option String) (name : String) : String :=
  (env name).getD ""

/-- Mutable attributes of one `Launcher` instance that the resolution pipeline
reads and writes: the search-path list, the environment overlay dictionary, and
the preload list. -/
structure EnvState where
  library_paths : List String
  environ_set : List (String × String)
  ld_preload : List String
deriving DecidableEq, Repr

/-- A log trace: the `(level, message)` pairs passed to `self.verbose`. -/
abbrev LogTrace := List (String × String)

/-- Python dictionary assignment `d[k] = v` on an insertion-ordered
association list: an existing key keeps its position and gets the new value,
a new key is appended. -/
def dictSet (d : List (String × String)) (k v : String) : List (String × String) :=
  if d.any (fun p => p.1 == k) then
    d.map (fun p => if p.1 == k then (k, v) else p)
  else d ++ [(k, v)]

/-- The warning text of `add_env`, including the line-continuation whitespace
of the Python source. -/
def addEnvConflictMsg (name ambient value : String) : String :=
  name ++ " in environment variable is " ++ ambient ++
    " while the value you would like to set                     is " ++ value ++
    ". Use the exsiting value."

/-- `Launcher.add_env`: record the desired value into the overlay unless the
ambient environment already holds a different non-empty value, in which case
the ambient value is recorded and a warning is emitted. -/
def add_env (env : String → Option String) (s : EnvState) (name value : String) :
    EnvState × LogTrace :=
  let v := pyGetenv env name
  if v ≠ "" ∧ v ≠ value then
    ({ s with environ_set := dictSet s.environ_set name v },
      [("warning", addEnvConflictMsg name v value)])
  else
    ({ s with environ_set := dictSet s.environ_set name value }, [])

/-- The file-name suffix `lib<token>.so` searched by `add_lib_preload`. -/
def libSuffix (t : String) : String := "lib" ++ t ++ ".so"

/-- Drop one trailing slash, as `add_lib_preload` does on each search path. -/
def stripTrailingSlash (p : String) : String :=
  if pyEndsWith p "/" then p.dropRight 1 else p

/-- The candidate library path `f"{lib_path}/lib{lib_type}.so"` built by
`add_lib_preload` after slash stripping. -/
def libFile (dir t : String) : String :=
  stripTrailingSlash dir ++ "/" ++ libSuffix t

/-- `Launcher.add_lib_preload`: succeed at once when some preload entry already
ends in `lib<token>.so`; otherwise scan the search paths in order and append
the first existing library file to the preload list.  `glob.glob` on the
wildcard-free pattern is modelled by the existence predicate `fs`, whose only
match is the pattern itself. -/
def add_lib_preload (fs : String → Bool) (s : EnvState) (lib_type : String) :
    Bool × EnvState :=
  if s.ld_preload.any (fun item => pyEndsWith item (libSuffix lib_type)) then
    (true, s)
  else
    match s.library_paths.find? (fun p => fs (libFile p lib_type)) with
    | some p => (true, { s with ld_preload := s.ld_preload ++ [libFile p lib_type] })
    | none => (false, s)

/-- First string of the `name_map` entry for a key: the on-disk search token. -/
def mapToken (nm : List (String × String × String)) (k : String) : String :=
  match nm.lookup k with
  | some v => v.1
  | none => ""

/-- Second string of the `name_map` entry for a key: the installation hint. -/
def mapHint (nm : List (String × String × String)) (k : String) : String :=
  match nm.lookup k with
  | some v => v.2
  | none => ""

/-- Remove the first element equal to `a`, as Python `list.remove` does. -/
def removeFirstEq : List String → String → List String
  | [], _ => []
  | x :: xs, a => if x == a then xs else x :: removeFirstEq xs a

/-- One pass of Python's `for item in lst: if item.endswith(suf): lst.remove(item)`
over a list that is mutated while being iterated: the iteration index `i` keeps
advancing even when a removal shifts the remaining elements left.  The fuel
argument bounds the number of iterations; `pyRemoveLoop` supplies the original
length, which the index reaches before the fuel can run out. -/
def pyRemoveLoopAux (suf : String) : Nat → Nat → List String → List String
  | 0, _, l => l
  | fuel + 1, i, l =>
    if h : i < l.length then
      let item := l.get ⟨i, h⟩
      if pyEndsWith item suf then
        pyRemoveLoopAux suf fuel (i + 1) (removeFirstEq l item)
      else
        pyRemoveLoopAux suf fuel (i + 1) l
    else l

/-- The preload-cleanup removal loop of `set_lib_bin_from_list` for one
competing search token. -/
def pyRemoveLoop (suf : String) (l : List String) : List String :=
  pyRemoveLoopAux suf l.length 0 l

/-- The final cleanup of `set_lib_bin_from_list` when the probe is
`add_lib_preload`: for every `name_map` key other than the resolved name,
run the removal loop for its token over the preload list. -/
def applyCleanup (nm : List (String × String × String)) (keep : String)
    (s : EnvState) : EnvState :=
  { s with
    ld_preload :=
      nm.foldl
        (fun l e => if e.1 == keep then l else pyRemoveLoop (libSuffix e.2.1) l)
        s.ld_preload }

/-- Warning of `set_lib_bin_from_list` for a requested name outside the
supported list, with the source's line-continuation whitespace. -/
def unknownNameMsg (category name_input autoName : String)
    (supported : List String) : String :=
  "Designated " ++ category ++ " \x27" ++ name_input ++ "\x27 is unknown. Changing it to \x27" ++
    autoName ++ "\x27.                     Supported " ++ category ++ " are " ++
    pyStrListRepr supported ++ "."

/-- Warning of `set_lib_bin_from_list` for a requested name present in the skip
list, with the source's line-continuation whitespace. -/
def skippedNameMsg (category name_input autoName : String)
    (supported : List String) : String :=
  "Designated " ++ category ++ " \x27" ++ name_input ++
    "\x27 is not applicable at this moment. Changing it to \x27" ++ autoName ++
    "\x27                    . Please choose another " ++ category ++ " from " ++
    pyStrListRepr supported ++ "."

/-- Info line emitted when the automatic probe adopts a concrete candidate. -/
def probeFoundMsg (autoName name category : String) : String :=
  "Use \x27" ++ autoName ++ "\x27 => \x27" ++ name ++ "\x27 " ++ category ++ "."

/-- Core of the none-found warning, by the number of concrete candidates. -/
def notFoundCoreMsg (cands : List String) (category : String) : String :=
  if cands.length == 1 then
    "\x27" ++ cands.headD "" ++ "\x27 " ++ category ++ " is not found"
  else if cands.length < 3 then
    "Neither of " ++ pyStrListRepr cands ++ " " ++ category ++ " is found"
  else
    "None of " ++ pyStrListRepr cands ++ " " ++ category ++ " is found"

/-- The none-found warning including the search-path list. -/
def notFoundMsg (cands : List String) (category : String)
    (paths : List String) : String :=
  notFoundCoreMsg cands category ++ " in " ++ pyStrListRepr paths ++ "."

/-- Final `Use '<name>' <category>.` info line; `extra` already carries its
leading space when non-empty. -/
def useMsg (name category extra : String) : String :=
  "Use \x27" ++ name ++ "\x27 " ++ category ++ "." ++ extra

/-- Warning for an explicitly requested candidate whose library file is not
found, with the source's line-continuation whitespace; `guide` already carries
its leading space when non-empty. -/
def unableMsg (name category : String) (paths : List String)
    (guide : String) : String :=
  "Unable to find the \x27" ++ name ++ "\x27 " ++ category ++ " library file in " ++
    pyStrListRepr paths ++ ".                        " ++ guide

/-- Normalization phase of `set_lib_bin_from_list`: lower-case the input, force
an unknown name to `supported[0]` with a warning, then force a skipped name to
`supported[0]` with a warning (both warnings pile up when the sentinel itself
is skip-listed).  It reads no launcher state. -/
def slbNorm (name_input : String) (category : String)
    (supported skip_list : List String) : String × LogTrace :=
  if pyToLower name_input ∈ supported then
    if pyToLower name_input ∈ skip_list then
      (supported.headD "",
        [("warning", skippedNameMsg category name_input (supported.headD "") supported)])
    else (pyToLower name_input, [])
  else
    if supported.headD "" ∈ skip_list then
      (supported.headD "",
        [("warning", unknownNameMsg category name_input (supported.headD "") supported),
         ("warning", skippedNameMsg category name_input (supported.headD "") supported)])
    else
      (supported.headD "",
        [("warning", unknownNameMsg category name_input (supported.headD "") supported)])

/-- The `for name in supported[2:]` probe loop of the `auto` branch: skip the
skip-listed candidates, call the probe on each remaining candidate's token in
order, and stop at the first success, logging the adoption info line.  When no
probe succeeds the sentinel `autoName` comes back. -/
def probeLoop (fn : EnvState → String → Bool × EnvState)
    (nm : List (String × String × String)) (skip_list : List String)
    (category autoName : String) :
    List String → EnvState → String × EnvState × LogTrace
  | [], s => (autoName, s, [])
  | name :: rest, s =>
    if name ∈ skip_list then probeLoop fn nm skip_list category autoName rest s
    else
      match fn s (mapToken nm name) with
      | (true, s1) => (name, s1, [("info", probeFoundMsg autoName name category)])
      | (false, s1) => probeLoop fn nm skip_list category autoName rest s1

/-- Dispatch phase of `set_lib_bin_from_list` on the normalized name `n2`:
the `auto` probe loop with its fallback, the explicit-candidate probe with its
fallback, or the direct default acceptance.  Returns the resolved name, the
state after any probing, and the log lines of this phase. -/
def slbResolve (fn : EnvState → String → Bool × EnvState) (s : EnvState)
    (nm : List (String × String × String)) (category : String)
    (supported skip_list : List String) (extra_warning : String)
    (n2 : String) : String × EnvState × LogTrace :=
  if n2 == supported.headD "" then
    if (probeLoop fn nm skip_list category (supported.headD "") (supported.drop 2) s).1
        == supported.headD "" then
      ((supported.drop 1).headD "",
       (probeLoop fn nm skip_list category (supported.headD "") (supported.drop 2) s).2.1,
       (probeLoop fn nm skip_list category (supported.headD "") (supported.drop 2) s).2.2 ++
         (if 0 < (supported.drop 2).length then
            [("warning", notFoundMsg (supported.drop 2) category
              (probeLoop fn nm skip_list category (supported.headD "")
                (supported.drop 2) s).2.1.library_paths)]
          else []) ++
         [("info", useMsg ((supported.drop 1).headD "") category
            (if extra_warning ≠ "" then " " ++ extra_warning else extra_warning))])
    else probeLoop fn nm skip_list category (supported.headD "") (supported.drop 2) s
  else if n2 ∈ supported.drop 2 then
    if (fn s (mapToken nm n2)).1 then
      (n2, (fn s (mapToken nm n2)).2, [("info", useMsg n2 category "")])
    else
      ((supported.drop 1).headD "",
       (fn s (mapToken nm n2)).2,
       [("warning", unableMsg n2 category (fn s (mapToken nm n2)).2.library_paths
          (if mapHint nm n2 ≠ "" then
            " You can install it with \"" ++ mapHint nm n2 ++ "\"."
          else "")),
        ("info", useMsg ((supported.drop 1).headD "") category
          (if extra_warning ≠ "" then " " ++ extra_warning else extra_warning))])
  else (n2, s, [("info", useMsg n2 category "")])

/-- `Launcher.set_lib_bin_from_list`: normalization, dispatch on the
normalized name, then the preload cleanup.  The probe capability `fn` stands
for the Python argument of the same position; the flag `isPre` stands for the
identity test `fn == self.add_lib_preload` guarding the final cleanup. -/
def set_lib_bin_from_list (fn : EnvState → String → Bool × EnvState)
    (isPre : Bool) (s : EnvState) (name_input : String)
    (nm : List (String × String × String)) (category : String)
    (supported skip_list : List String) (extra_warning : String) :
    String × EnvState × LogTrace :=
  let nl := slbNorm name_input category supported skip_list
  let d := slbResolve fn s nm category supported skip_list extra_warning nl.1
  let sF := if isPre then applyCleanup nm d.1 d.2.1 else d.2.1
  (d.1, sF, nl.2 ++ d.2.2)

/-- The fixed allocator preference list of `Launcher.__init__`. -/
def ma_supported : List String := ["auto", "default", "tcmalloc", "jemalloc"]

/-- The fixed OpenMP preference list of `Launcher.__init__`. -/
def omp_supported : List String := ["auto", "default", "intel"]

/-- The allocator name map of `set_memory_allocator`, in dictionary insertion
order. -/
def ma_lib_name : List (String × String × String) :=
  [("jemalloc", "jemalloc", "conda install -c conda-forge jemalloc"),
   ("tcmalloc", "tcmalloc", "conda install -c conda-forge gperftools")]

/-- The OpenMP name map of `set_omp_runtime`. -/
def omp_lib_name : List (String × String × String) :=
  [("intel", "iomp5", "conda install intel-openmp")]

/-- The `MALLOC_CONF` preset used in benchmark mode. -/
def mallocConfBenchmark : String :=
  "oversize_threshold:1,background_thread:false,metadata_thp:always,dirty_decay_ms:-1,muzzy_decay_ms:-1"

/-- The `MALLOC_CONF` preset used outside benchmark mode. -/
def mallocConfGeneral : String :=
  "oversize_threshold:1,background_thread:true,metadata_thp:auto"

/-- `Launcher.set_memory_allocator`: resolve the allocator through
`set_lib_bin_from_list` with the preload probe, then set `MALLOC_CONF` when
the resolved allocator is jemalloc. -/
def set_memory_allocator (fs : String → Bool) (env : String → Option String)
    (s : EnvState) (memory_allocator : String) (benchmark : Bool)
    (skip_list : List String) : String × EnvState × LogTrace :=
  let r :=
    set_lib_bin_from_list (add_lib_preload fs) true s memory_allocator
      ma_lib_name "memory allocator" ma_supported skip_list
      "This may drop the performance."
  if r.1 == "jemalloc" then
    let a :=
      add_env env r.2.1 "MALLOC_CONF"
        (if benchmark then mallocConfBenchmark else mallocConfGeneral)
    (r.1, a.1, r.2.2 ++ a.2)
  else r

/-- `Launcher.set_omp_runtime`: resolve the OpenMP runtime through
`set_lib_bin_from_list` with the preload probe, then set the affinity and
scheduling variables the resolved runtime calls for. -/
def set_omp_runtime (fs : String → Bool) (env : String → Option String)
    (s : EnvState) (omp_runtime : String) (set_kmp_affinity : Bool) :
    String × EnvState × LogTrace :=
  let r :=
    set_lib_bin_from_list (add_lib_preload fs) true s omp_runtime
      omp_lib_name "OpenMP runtime" omp_supported [] ""
  if r.1 == "intel" then
    let a :=
      if set_kmp_affinity then
        add_env env r.2.1 "KMP_AFFINITY" "granularity=fine,compact,1,0"
      else (r.2.1, [])
    let b := add_env env a.1 "KMP_BLOCKTIME" "1"
    (r.1, b.1, r.2.2 ++ a.2 ++ b.2)
  else if r.1 == "default" then
    let a := add_env env r.2.1 "OMP_SCHEDULE" "STATIC"
    let b := add_env env a.1 "OMP_PROC_BIND" "CLOSE"
    (r.1, b.1, r.2.2 ++ a.2 ++ b.2)
  else r

/-- Python ASCII whitespace stripped by `str.strip` on the launcher's inputs. -/
def isStripChar (c : Char) : Bool :=
  c == ' ' || c == '\t' || c == '\n' || c == '\r'

/-- Python `str.strip` on a character list. -/
def pyStrip (l : List Char) : List Char :=
  ((l.dropWhile isStripChar).reverse.dropWhile isStripChar).reverse

/-- Python `str.split(sep)` for a one-character separator: `"".split(",")`
yields `[""]`, and empty fields are kept. -/
def pySplitOn (c : Char) : List Char → List (List Char)
  | [] => [[]]
  | x :: xs =>
    if x == c then [] :: pySplitOn c xs
    else
      match pySplitOn c xs with
      | h :: t => (x :: h) :: t
      | [] => [[x]]

/-- Numeric value of a decimal digit string. -/
def natOfDigits (l : List Char) : Nat :=
  l.foldl (fun acc c => acc * 10 + (c.toNat - '0'.toNat)) 0

/-- Python `int(x)` on the launcher's range tokens, which are non-negative
decimals: any other shape raises `ValueError`.  Python's `int` also accepts a
sign character; the launcher feeds it only digit strings or malformed tokens,
and both sides reject the latter. -/
def pyIntParse (l : List Char) : Except String Nat :=
  if l ≠ [] ∧ l.all Char.isDigit then Except.ok (natOfDigits l)
  else Except.error "invalid literal for int() with base 10"

/-- One comma-separated token of `parse_list_argument`: a stripped digit string
stands for itself, anything else must be a `low-high` pair with `low ≤ high`
and denotes the inclusive range. -/
def parseToken (tok : List Char) : Except String (List Nat) :=
  let e := pyStrip tok
  if e ≠ [] ∧ e.all Char.isDigit then Except.ok [natOfDigits e]
  else
    match ((pySplitOn '-' e).map pyStrip).mapM pyIntParse with
    | Except.error m => Except.error m
    | Except.ok l =>
      match l with
      | [b, en] =>
        if b ≤ en then Except.ok (List.range' b (en + 1 - b))
        else Except.error "Begining index of a range must be <= ending index."
      | _ => Except.error "Invalid range format detected."

/-- `Launcher.parse_list_argument`: split on commas, parse every token, and
deduplicate with `list(set(...))`, whose unspecified ordering is modelled by
returning the finite set itself. -/
def parse_list_argument (txt : String) : Except String (Finset Nat) :=
  let t := pyStrip txt.data
  if t = [] then Except.ok (∅ : Finset Nat)
  else
    match (pySplitOn ',' t).mapM parseToken with
    | Except.error m => Except.error m
    | Except.ok ls => Except.ok ls.flatten.toFinset

/-- The assertion text of `Launcher.verbose` for an unrecognized level. -/
def verboseAssertMsg (level : String) : String :=
  "Unrecognized logging level " ++ level ++
    " is detected. Available levels are dict_keys([\x27warning\x27, \x27info\x27])."

/-- `Launcher.verbose`: with an injected logger, dispatch on the level through
the `{warning, info}` dictionary after asserting membership (a failed
assertion raises, modelled as `Except.error`); without a logger, print the
message whatever the level. -/
def verbose (hasLogger : Bool) (level msg : String) :
    Except String (String × String) :=
  if hasLogger then
    if level == "warning" || level == "info" then Except.ok (level, msg)
    else Except.error (verboseAssertMsg level)
  else Except.ok ("print", msg)

/-- Some preload entry already ends in `lib<token>.so`: the first test of
`add_lib_preload`. -/
def preloadMatch (s : EnvState) (t : String) : Bool :=
  s.ld_preload.any (fun e => pyEndsWith e (libSuffix t))

/-- Some configured search path holds the library file: the second test of
`add_lib_preload`. -/
def fsHit (fs : String → Bool) (s : EnvState) (t : String) : Bool :=
  s.library_paths.any (fun p => fs (libFile p t))

/-- The probe outcome of `add_lib_preload`, as a function of the state. -/
def probeOk (fs : String → Bool) (s : EnvState) (t : String) : Bool :=
  preloadMatch s t || fsHit fs s t

/-- First candidate outside the skip list whose probe would succeed from state
`s`; the `auto` probe loop succeeds exactly on this candidate because failed
probes leave the state unchanged. -/
def firstAvail (fs : String → Bool) (s : EnvState)
    (nm : List (String × String × String)) (skip_list : List String) :
    List String → Option String
  | [] => none
  | c :: cs =>
    if c ∈ skip_list then firstAvail fs s nm skip_list cs
    else if probeOk fs s (mapToken nm c) then some c
    else firstAvail fs s nm skip_list cs

/-- Restatement of the specification's automatic-resolution policy, written
from its wording for comparison with the code: probe each candidate in
priority order through the probe capability, skipping excluded ones; the first
candidate whose probe succeeds is adopted and no later candidate is probed;
when none succeeds the answer is `none` next to the threaded state. -/
def specAutoProbe (fn : EnvState → String → Bool × EnvState)
    (nm : List (String × String × String)) (skip_list : List String) :
    List String → EnvState → Option String × EnvState
  | [], s => (none, s)
  | c :: cs, s =>
    if c ∈ skip_list then specAutoProbe fn nm skip_list cs s
    else
      let pc := fn s (mapToken nm c)
      if pc.1 then (some c, pc.2)
      else specAutoProbe fn nm skip_list cs pc.2

section Lemmas

/-- Shorter of two suffixes of the same list is a suffix of the longer. -/
theorem suffix_of_suffix_length_le {α : Type} {l₁ l₂ l₃ : List α}
    (h1 : l₁ <:+ l₃) (h2 : l₂ <:+ l₃) (h : l₁.length ≤ l₂.length) : l₁ <:+ l₂ := by
  rw [← List.reverse_prefix] at h1 h2 ⊢
  exact List.prefix_of_prefix_length_le h1 h2 (by simpa using h)

/-- Character data of a string concatenation. -/
theorem strData_append (a b : String) : (a ++ b).data = a.data ++ b.data := rfl

/-- Unfolding of `pyEndsWith` into list-suffix form. -/
theorem pyEndsWith_iff {s suf : String} :
    pyEndsWith s suf = true ↔ suf.data <:+ s.data := by
  simp [pyEndsWith, List.isSuffixOf_iff_suffix]

/-- A concatenation ends with its right part. -/
theorem pyEndsWith_append_self (a b : String) : pyEndsWith (a ++ b) b = true := by
  rw [pyEndsWith_iff, strData_append]
  exact List.suffix_append a.data b.data

/-- A concatenation cannot end with a short string that its right part does
not end with. -/
theorem pyEndsWith_append_false (a b c : String)
    (hlen : c.data.length ≤ b.data.length)
    (hb : ¬ c.data <:+ b.data) : pyEndsWith (a ++ b) c = false := by
  rw [← Bool.not_eq_true, pyEndsWith_iff, strData_append]
  intro hs
  exact hb (suffix_of_suffix_length_le hs (List.suffix_append a.data b.data) hlen)

/-- Restatement of `libFile` that exposes the fixed right part. -/
theorem libFile_eq (dir t : String) :
    libFile dir t = stripTrailingSlash dir ++ ("/" ++ libSuffix t) := by
  simp [libFile, String.append_assoc]

/-- The built library path ends with its own `lib<token>.so` suffix. -/
theorem libFile_endsWith_self (dir t : String) :
    pyEndsWith (libFile dir t) (libSuffix t) = true := by
  rw [pyEndsWith_iff]
  have : (libFile dir t).data =
      (stripTrailingSlash dir ++ "/").data ++ (libSuffix t).data := rfl
  rw [this]
  exact List.suffix_append _ _

/-- A string cannot end with the `lib<token>.so` suffixes of both concrete
allocator tokens at once: the two suffixes have equal length and differ. -/
theorem not_both_ma_suffixes (e : String) :
    ¬ (pyEndsWith e (libSuffix "tcmalloc") = true ∧
       pyEndsWith e (libSuffix "jemalloc") = true) := by
  rintro ⟨h1, h2⟩
  rw [pyEndsWith_iff] at h1 h2
  have hlen : (libSuffix "tcmalloc").data.length = (libSuffix "jemalloc").data.length := by
    decide
  have := (suffix_of_suffix_length_le h1 h2 (le_of_eq hlen)).eq_of_length hlen
  exact absurd this (by decide)

/-- The jemalloc library path built from any directory does not end with the
tcmalloc suffix. -/
theorem libFile_jemalloc_not_tcmalloc (dir : String) :
    pyEndsWith (libFile dir "jemalloc") (libSuffix "tcmalloc") = false := by
  rw [libFile_eq]
  exact pyEndsWith_append_false _ _ _ (by decide) (by decide)

/-- The tcmalloc library path built from any directory does not end with the
jemalloc suffix. -/
theorem libFile_tcmalloc_not_jemalloc (dir : String) :
    pyEndsWith (libFile dir "tcmalloc") (libSuffix "jemalloc") = false := by
  rw [libFile_eq]
  exact pyEndsWith_append_false _ _ _ (by decide) (by decide)

/-- The probe result of `add_lib_preload` is `probeOk`. -/
theorem add_lib_preload_fst (fs : String → Bool) (s : EnvState) (t : String) :
    (add_lib_preload fs s t).1 = probeOk fs s t := by
  unfold add_lib_preload probeOk preloadMatch fsHit
  by_cases h : s.ld_preload.any (fun e => pyEndsWith e (libSuffix t)) = true
  · simp [h]
  · rcases hf : s.library_paths.find? (fun p => fs (libFile p t)) with _ | p
    · have : s.library_paths.any (fun p => fs (libFile p t)) = false := by
        rw [List.any_eq_false]
        intro x hx
        exact List.find?_eq_none.mp hf x hx
      simp [h, hf, this]
    · have hp := List.find?_some hf
      have hm := List.mem_of_find?_eq_some hf
      have : s.library_paths.any (fun p => fs (libFile p t)) = true :=
        List.any_eq_true.mpr ⟨p, hm, hp⟩
      simp [h, hf, this]

/-- A failed probe leaves the state unchanged. -/
theorem add_lib_preload_false (fs : String → Bool) (s : EnvState) (t : String)
    (h : probeOk fs s t = false) : add_lib_preload fs s t = (false, s) := by
  have h1 : preloadMatch s t = false := by
    rcases Bool.or_eq_false_iff.mp h with ⟨h1, _⟩; exact h1
  have h2 : fsHit fs s t = false := by
    rcases Bool.or_eq_false_iff.mp h with ⟨_, h2⟩; exact h2
  have hf : s.library_paths.find? (fun p => fs (libFile p t)) = none := by
    rw [List.find?_eq_none]
    intro x hx
    rw [fsHit, List.any_eq_false] at h2
    simp [h2 x hx]
  unfold add_lib_preload
  rw [preloadMatch] at h1
  simp [h1, hf]

/-- After a successful probe the preload list holds a matching entry. -/
theorem add_lib_preload_true_match {fs : String → Bool} {s s' : EnvState} {t : String}
    (h : add_lib_preload fs s t = (true, s')) :
    ∃ e ∈ s'.ld_preload, pyEndsWith e (libSuffix t) = true := by
  unfold add_lib_preload at h
  by_cases hm : s.ld_preload.any (fun e => pyEndsWith e (libSuffix t)) = true
  · rw [if_pos hm] at h
    obtain ⟨e, he, hee⟩ := List.any_eq_true.mp hm
    exact ⟨e, (Prod.mk.injEq _ _ _ _ |>.mp h).2 ▸ he, hee⟩
  · rw [if_neg hm] at h
    rcases hf : s.library_paths.find? (fun p => fs (libFile p t)) with _ | p
    · rw [hf] at h; exact absurd h (by simp)
    · rw [hf] at h
      refine ⟨libFile p t, ?_, libFile_endsWith_self p t⟩
      have := (Prod.mk.injEq _ _ _ _ |>.mp h).2
      rw [← this]
      simp

/-- The probe never touches the search paths or the environment overlay, and
it can only append one of its own library files to the preload list. -/
theorem add_lib_preload_state (fs : String → Bool) (s : EnvState) (t : String) :
    (add_lib_preload fs s t).2.library_paths = s.library_paths ∧
    (add_lib_preload fs s t).2.environ_set = s.environ_set ∧
    ∀ e ∈ (add_lib_preload fs s t).2.ld_preload,
      e ∈ s.ld_preload ∨ ∃ d, e = libFile d t := by
  unfold add_lib_preload
  by_cases hm : s.ld_preload.any (fun e => pyEndsWith e (libSuffix t)) = true
  · exact ⟨by simp [hm], by simp [hm], fun e he => Or.inl (by simpa [hm] using he)⟩
  · rcases hf : s.library_paths.find? (fun p => fs (libFile p t)) with _ | p
    · exact ⟨by simp [hm, hf], by simp [hm, hf],
        fun e he => Or.inl (by simpa [hm, hf] using he)⟩
    · refine ⟨by simp [hm, hf], by simp [hm, hf], ?_⟩
      intro e he
      simp only [hm, hf] at he
      rw [if_neg (by simp)] at he
      simp only [List.mem_append, List.mem_singleton] at he
      rcases he with he | he
      · exact Or.inl he
      · exact Or.inr ⟨p, he⟩

/-- Unavailability is preserved by any state change that keeps the search
paths and only adds preload entries that do not match the token. -/
theorem probeOk_false_mono (fs : String → Bool) {s s' : EnvState} {t : String}
    (hp : s'.library_paths = s.library_paths)
    (hsub : ∀ e ∈ s'.ld_preload, e ∈ s.ld_preload ∨ pyEndsWith e (libSuffix t) = false)
    (h : probeOk fs s t = false) : probeOk fs s' t = false := by
  rcases Bool.or_eq_false_iff.mp h with ⟨h1, h2⟩
  rw [probeOk, Bool.or_eq_false_iff]
  constructor
  · rw [preloadMatch, List.any_eq_false]
    intro e he
    rcases hsub e he with hmem | hno
    · rw [preloadMatch, List.any_eq_false] at h1
      simp [h1 e hmem]
    · simp [hno]
  · rw [fsHit, hp]
    exact h2

/-- A surviving matching preload entry keeps the probe available. -/
theorem probeOk_true_of_mem (fs : String → Bool) {s : EnvState} {t e : String}
    (he : e ∈ s.ld_preload) (hm : pyEndsWith e (libSuffix t) = true) :
    probeOk fs s t = true := by
  rw [probeOk, Bool.or_eq_true]
  exact Or.inl (List.any_eq_true.mpr ⟨e, he, hm⟩)

/-- Removing the first occurrence only drops elements. -/
theorem mem_of_mem_removeFirstEq {l : List String} {a e : String}
    (h : e ∈ removeFirstEq l a) : e ∈ l := by
  induction l with
  | nil => simp [removeFirstEq] at h
  | cons x xs ih =>
    by_cases hx : (x == a) = true
    · rw [removeFirstEq, if_pos hx] at h
      exact List.mem_cons_of_mem x h
    · rw [removeFirstEq, if_neg hx] at h
      rcases List.mem_cons.mp h with rfl | h
      · exact List.mem_cons_self _ _
      · exact List.mem_cons_of_mem x (ih h)

/-- Removing an element different from `e` keeps `e`. -/
theorem mem_removeFirstEq_of_ne {l : List String} {a e : String}
    (he : e ∈ l) (hne : e ≠ a) : e ∈ removeFirstEq l a := by
  induction l with
  | nil => simp at he
  | cons x xs ih =>
    by_cases hx : (x == a) = true
    · rw [removeFirstEq, if_pos hx]
      rcases List.mem_cons.mp he with rfl | h
      · exact absurd (beq_iff_eq.mp hx) hne
      · exact h
    · rw [removeFirstEq, if_neg hx]
      rcases List.mem_cons.mp he with rfl | h
      · exact List.mem_cons_self _ _
      · exact List.mem_cons_of_mem x (ih h)

/-- The removal loop only drops elements. -/
theorem mem_of_mem_pyRemoveLoopAux {suf : String} {e : String} :
    ∀ (fuel i : Nat) (l : List String), e ∈ pyRemoveLoopAux suf fuel i l → e ∈ l := by
  intro fuel
  induction fuel with
  | zero => intro i l h; simpa [pyRemoveLoopAux] using h
  | succ n ih =>
    intro i l h
    rw [pyRemoveLoopAux] at h
    by_cases hi : i < l.length
    · rw [dif_pos hi] at h
      by_cases hm : pyEndsWith (l.get ⟨i, hi⟩) suf = true
      · rw [if_pos hm] at h
        exact mem_of_mem_removeFirstEq (ih _ _ h)
      · rw [if_neg hm] at h
        exact ih _ _ h
    · rwa [dif_neg hi] at h

/-- An element that does not match the searched suffix survives the removal
loop. -/
theorem mem_pyRemoveLoopAux_of_no_match {suf : String} {e : String}
    (hno : pyEndsWith e suf = false) :
    ∀ (fuel i : Nat) (l : List String), e ∈ l → e ∈ pyRemoveLoopAux suf fuel i l := by
  intro fuel
  induction fuel with
  | zero => intro i l h; simpa [pyRemoveLoopAux] using h
  | succ n ih =>
    intro i l h
    rw [pyRemoveLoopAux]
    by_cases hi : i < l.length
    · rw [dif_pos hi]
      by_cases hm : pyEndsWith (l.get ⟨i, hi⟩) suf = true
      · rw [if_pos hm]
        refine ih _ _ (mem_removeFirstEq_of_ne h ?_)
        intro he
        rw [he] at hno
        rw [hno] at hm
        cases hm
      · rw [if_neg hm]
        exact ih _ _ h
    · rwa [dif_neg hi]

/-- The cleanup never touches the search paths or the environment overlay. -/
theorem applyCleanup_state (nm : List (String × String × String)) (keep : String)
    (s : EnvState) :
    (applyCleanup nm keep s).library_paths = s.library_paths ∧
    (applyCleanup nm keep s).environ_set = s.environ_set := by
  constructor <;> rfl

/-- The cleanup only drops preload entries. -/
theorem mem_of_mem_applyCleanup {nm : List (String × String × String)}
    {keep : String} {s : EnvState} {e : String}
    (h : e ∈ (applyCleanup nm keep s).ld_preload) : e ∈ s.ld_preload := by
  rw [applyCleanup] at h
  simp only at h
  induction nm generalizing s with
  | nil => simpa using h
  | cons x xs ih =>
    rw [List.foldl_cons] at h
    by_cases hx : (x.1 == keep) = true
    · rw [if_pos hx] at h
      exact ih h
    · rw [if_neg hx] at h
      have := ih (s := { s with ld_preload := pyRemoveLoop (libSuffix x.2.1) s.ld_preload }) h
      exact mem_of_mem_pyRemoveLoopAux _ _ _ this

/-- A preload entry that matches none of the removed tokens survives the
cleanup. -/
theorem mem_applyCleanup_of_no_match {nm : List (String × String × String)}
    {keep : String} {s : EnvState} {e : String} (he : e ∈ s.ld_preload)
    (hno : ∀ x ∈ nm, x.1 ≠ keep → pyEndsWith e (libSuffix x.2.1) = false) :
    e ∈ (applyCleanup nm keep s).ld_preload := by
  rw [applyCleanup]
  simp only
  induction nm generalizing s with
  | nil => simpa using he
  | cons x xs ih =>
    rw [List.foldl_cons]
    by_cases hx : (x.1 == keep) = true
    · rw [if_pos hx]
      exact ih he (fun y hy => hno y (List.mem_cons_of_mem x hy))
    · rw [if_neg hx]
      have hm : pyEndsWith e (libSuffix x.2.1) = false :=
        hno x (List.mem_cons_self x xs) (fun hk => hx (beq_iff_eq.mpr hk))
      exact ih (s := { s with ld_preload := pyRemoveLoop (libSuffix x.2.1) s.ld_preload })
        (mem_pyRemoveLoopAux_of_no_match hm _ _ _ he)
        (fun y hy => hno y (List.mem_cons_of_mem x hy))

/-- The probe loop agrees with the specification's automatic-resolution
policy, adding only the adoption info line. -/
theorem probeLoop_spec (fn : EnvState → String → Bool × EnvState)
    (nm : List (String × String × String)) (skip_list : List String)
    (category autoName : String) (cs : List String) (s : EnvState) :
    probeLoop fn nm skip_list category autoName cs s =
      match specAutoProbe fn nm skip_list cs s with
      | (some c, s1) => (c, s1, [("info", probeFoundMsg autoName c category)])
      | (none, s1) => (autoName, s1, []) := by
  induction cs generalizing s with
  | nil => simp [probeLoop, specAutoProbe]
  | cons c cs ih =>
    by_cases hc : c ∈ skip_list
    · simp [probeLoop, specAutoProbe, hc, ih]
    · rcases hf : fn s (mapToken nm c) with ⟨b, s1⟩
      cases b
      · simp [probeLoop, specAutoProbe, hc, hf, ih]
      · simp [probeLoop, specAutoProbe, hc, hf]

/-- With the preload probe, the loop resolves exactly the first available
non-skipped candidate, because failed probes leave the state unchanged. -/
theorem probeLoop_alp_fst (fs : String → Bool)
    (nm : List (String × String × String)) (skip_list : List String)
    (category autoName : String) (cs : List String) (s : EnvState) :
    (probeLoop (add_lib_preload fs) nm skip_list category autoName cs s).1 =
      (firstAvail fs s nm skip_list cs).getD autoName := by
  induction cs generalizing s with
  | nil => simp [probeLoop, firstAvail]
  | cons c cs ih =>
    by_cases hc : c ∈ skip_list
    · simp [probeLoop, firstAvail, hc, ih]
    · by_cases hp : probeOk fs s (mapToken nm c) = true
      · have hfst := add_lib_preload_fst fs s (mapToken nm c)
        rcases hf : add_lib_preload fs s (mapToken nm c) with ⟨b, s1⟩
        rw [hf] at hfst
        simp only at hfst
        rw [hp] at hfst
        subst hfst
        simp [probeLoop, firstAvail, hc, hf, hp]
      · have hff : add_lib_preload fs s (mapToken nm c) = (false, s) :=
          add_lib_preload_false fs s (mapToken nm c) (Bool.not_eq_true _ ▸ hp)
        simp [probeLoop, firstAvail, hc, hff, hp, ih]

/-- With the preload probe, the loop preserves the search paths and the
environment overlay, and only ever appends a library file of the token of the
name it returns. -/
theorem probeLoop_alp_state (fs : String → Bool)
    (nm : List (String × String × String)) (skip_list : List String)
    (category autoName : String) (cs : List String) (s : EnvState) :
    (probeLoop (add_lib_preload fs) nm skip_list category autoName cs s).2.1.library_paths
        = s.library_paths ∧
    (probeLoop (add_lib_preload fs) nm skip_list category autoName cs s).2.1.environ_set
        = s.environ_set ∧
    ∀ e ∈ (probeLoop (add_lib_preload fs) nm skip_list category autoName cs s).2.1.ld_preload,
      e ∈ s.ld_preload ∨
        ∃ d, e = libFile d (mapToken nm
          (probeLoop (add_lib_preload fs) nm skip_list category autoName cs s).1) := by
  induction cs generalizing s with
  | nil => exact ⟨rfl, rfl, fun e he => Or.inl he⟩
  | cons c cs ih =>
    by_cases hc : c ∈ skip_list
    · simpa [probeLoop, hc] using ih s
    · by_cases hp : probeOk fs s (mapToken nm c) = true
      · have hfst := add_lib_preload_fst fs s (mapToken nm c)
        rcases hf : add_lib_preload fs s (mapToken nm c) with ⟨b, s1⟩
        rw [hf] at hfst
        simp only at hfst
        rw [hp] at hfst
        subst hfst
        have hst := add_lib_preload_state fs s (mapToken nm c)
        rw [hf] at hst
        simpa [probeLoop, hc, hf] using hst
      · have hff : add_lib_preload fs s (mapToken nm c) = (false, s) :=
          add_lib_preload_false fs s (mapToken nm c) (Bool.not_eq_true _ ▸ hp)
        simpa [probeLoop, hc, hff] using ih s

/-- When the loop adopts a candidate, the resulting state holds a preload
entry matching that candidate's token. -/
theorem probeLoop_alp_found (fs : String → Bool)
    (nm : List (String × String × String)) (skip_list : List String)
    (category autoName : String) (cs : List String) (s : EnvState)
    (hne : (probeLoop (add_lib_preload fs) nm skip_list category autoName cs s).1 ≠ autoName) :
    ∃ e ∈ (probeLoop (add_lib_preload fs) nm skip_list category autoName cs s).2.1.ld_preload,
      pyEndsWith e (libSuffix (mapToken nm
        (probeLoop (add_lib_preload fs) nm skip_list category autoName cs s).1)) = true := by
  induction cs generalizing s with
  | nil => exact absurd rfl hne
  | cons c cs ih =>
    by_cases hc : c ∈ skip_list
    · rw [probeLoop, if_pos hc] at hne ⊢
      exact ih s hne
    · rcases hf : add_lib_preload fs s (mapToken nm c) with ⟨b, s1⟩
      cases b
      · have : s1 = s := by
          have := add_lib_preload_fst fs s (mapToken nm c)
          rw [hf] at this
          have hff := add_lib_preload_false fs s (mapToken nm c) this.symm
          rw [hf] at hff
          exact ((Prod.mk.injEq _ _ _ _).mp hff).2.symm ▸ rfl
        subst this
        rw [probeLoop, if_neg hc, hf] at hne ⊢
        simp only at hne ⊢
        exact ih s1 hne
      · rw [probeLoop, if_neg hc, hf]
        simp only
        exact add_lib_preload_true_match hf

/-- Resolved-name projection of `set_lib_bin_from_list`. -/
theorem slb_fst (fn : EnvState → String → Bool × EnvState) (isPre : Bool)
    (s : EnvState) (name_input : String) (nm : List (String × String × String))
    (category : String) (supported skip_list : List String) (extra : String) :
    (set_lib_bin_from_list fn isPre s name_input nm category supported skip_list extra).1 =
      (slbResolve fn s nm category supported skip_list extra
        (slbNorm name_input category supported skip_list).1).1 := rfl

/-- State projection of `set_lib_bin_from_list`. -/
theorem slb_state (fn : EnvState → String → Bool × EnvState) (isPre : Bool)
    (s : EnvState) (name_input : String) (nm : List (String × String × String))
    (category : String) (supported skip_list : List String) (extra : String) :
    (set_lib_bin_from_list fn isPre s name_input nm category supported skip_list extra).2.1 =
      (if isPre then
        applyCleanup nm
          (slbResolve fn s nm category supported skip_list extra
            (slbNorm name_input category supported skip_list).1).1
          (slbResolve fn s nm category supported skip_list extra
            (slbNorm name_input category supported skip_list).1).2.1
      else
        (slbResolve fn s nm category supported skip_list extra
          (slbNorm name_input category supported skip_list).1).2.1) := rfl

/-- Log projection of `set_lib_bin_from_list`. -/
theorem slb_log (fn : EnvState → String → Bool × EnvState) (isPre : Bool)
    (s : EnvState) (name_input : String) (nm : List (String × String × String))
    (category : String) (supported skip_list : List String) (extra : String) :
    (set_lib_bin_from_list fn isPre s name_input nm category supported skip_list extra).2.2 =
      (slbNorm name_input category supported skip_list).2 ++
        (slbResolve fn s nm category supported skip_list extra
          (slbNorm name_input category supported skip_list).1).2.2 := rfl

/-- The normalized name is the head sentinel or a supported, non-skipped
name. -/
theorem slbNorm_fst_cases (name_input category : String)
    (supported skip_list : List String) :
    (slbNorm name_input category supported skip_list).1 = supported.headD "" ∨
    ((slbNorm name_input category supported skip_list).1 = pyToLower name_input ∧
      pyToLower name_input ∈ supported ∧ pyToLower name_input ∉ skip_list) := by
  simp only [slbNorm]
  split_ifs with h0 h1 h2 <;> simp_all

/-- Every entry of the overlay dictionary carrying the assigned key holds the
assigned value. -/
theorem dictSet_key_val {d : List (String × String)} {k v : String} :
    ∀ p ∈ dictSet d k v, p.1 = k → p = (k, v) := by
  intro p hp hk
  rw [dictSet] at hp
  by_cases hd : d.any (fun q => q.1 == k) = true
  · rw [if_pos hd] at hp
    obtain ⟨q, hq, hqe⟩ := List.mem_map.mp hp
    by_cases hqk : (q.1 == k) = true
    · rw [if_pos hqk] at hqe
      exact hqe.symm
    · rw [if_neg hqk] at hqe
      exact absurd (beq_iff_eq.mpr (hqe ▸ hk)) hqk
  · rw [if_neg hd] at hp
    rw [Bool.not_eq_true, List.any_eq_false] at hd
    rcases List.mem_append.mp hp with hp | hp
    · exact absurd (beq_iff_eq.mpr hk) (by simpa using hd p hp)
    · simpa using hp

/-- The assigned key is present after assignment. -/
theorem dictSet_key_mem (d : List (String × String)) (k v : String) :
    ∃ p ∈ dictSet d k v, p.1 = k := by
  rw [dictSet]
  by_cases hd : d.any (fun q => q.1 == k) = true
  · rw [if_pos hd]
    obtain ⟨q, hq, hqk⟩ := List.any_eq_true.mp hd
    refine ⟨(k, v), List.mem_map.mpr ⟨q, hq, ?_⟩, rfl⟩
    rw [if_pos hqk]
  · rw [if_neg hd]
    exact ⟨(k, v), List.mem_append.mpr (Or.inr (by simp)), rfl⟩

/-- Entries under other keys are untouched by assignment. -/
theorem dictSet_other_key {d : List (String × String)} {k v : String} {p : String × String}
    (hne : p.1 ≠ k) : p ∈ dictSet d k v ↔ p ∈ d := by
  rw [dictSet]
  by_cases hd : d.any (fun q => q.1 == k) = true
  · rw [if_pos hd]
    constructor
    · intro hp
      obtain ⟨q, hq, hqe⟩ := List.mem_map.mp hp
      by_cases hqk : (q.1 == k) = true
      · rw [if_pos hqk] at hqe
        exact absurd (hqe ▸ rfl : p.1 = k) hne
      · rw [if_neg hqk] at hqe
        exact hqe ▸ hq
    · intro hp
      refine List.mem_map.mpr ⟨p, hp, ?_⟩
      rw [if_neg (fun hk => hne (beq_iff_eq.mp hk))]
  · rw [if_neg hd]
    constructor
    · intro hp
      rcases List.mem_append.mp hp with hp | hp
      · exact hp
      · exact absurd (by simpa using hp : p = (k, v)) (fun he => hne (he ▸ rfl))
    · intro hp
      exact List.mem_append.mpr (Or.inl hp)

/-- Re-assigning a key to the value it already uniformly holds changes
nothing. -/
theorem dictSet_absorb {d : List (String × String)} {k v : String}
    (hmem : ∃ p ∈ d, p.1 = k) (hval : ∀ p ∈ d, p.1 = k → p = (k, v)) :
    dictSet d k v = d := by
  obtain ⟨p, hp, hpk⟩ := hmem
  have hany : (d.any fun q => q.1 == k) = true :=
    List.any_eq_true.mpr ⟨p, hp, beq_iff_eq.mpr hpk⟩
  rw [dictSet, if_pos hany]
  have hmap : d.map (fun q => if q.1 == k then (k, v) else q) = d.map id := by
    apply List.map_congr_left
    intro q hq
    by_cases hqk : (q.1 == k) = true
    · rw [if_pos hqk]
      exact (hval q hq (beq_iff_eq.mp hqk)).symm
    · rw [if_neg hqk]
      rfl
  rw [hmap, List.map_id]

/-- Assigning the same key-value pair twice equals assigning it once. -/
theorem dictSet_dictSet_same (d : List (String × String)) (k v : String) :
    dictSet (dictSet d k v) k v = dictSet d k v :=
  dictSet_absorb (dictSet_key_mem d k v) (fun p hp => dictSet_key_val p hp)

/-- When no candidate is available the probe loop is a no-op on the state. -/
theorem probeLoop_alp_none (fs : String → Bool)
    (nm : List (String × String × String)) (skip_list : List String)
    (category autoName : String) (cs : List String) (s : EnvState)
    (h : firstAvail fs s nm skip_list cs = none) :
    probeLoop (add_lib_preload fs) nm skip_list category autoName cs s
      = (autoName, s, []) := by
  induction cs with
  | nil => rfl
  | cons c cs ih =>
    rw [firstAvail] at h
    by_cases hc : c ∈ skip_list
    · rw [if_pos hc] at h
      rw [probeLoop, if_pos hc]
      exact ih h
    · rw [if_neg hc] at h
      by_cases hp : probeOk fs s (mapToken nm c) = true
      · rw [if_pos hp] at h
        exact absurd h (by simp)
      · rw [if_neg hp] at h
        have hff : add_lib_preload fs s (mapToken nm c) = (false, s) :=
          add_lib_preload_false fs s (mapToken nm c) (Bool.not_eq_true _ ▸ hp)
        rw [probeLoop, if_neg hc, hff]
        exact ih h

/-- The dispatch phase with the preload probe preserves the search paths and
the environment overlay. -/
theorem slbResolve_alp_frame (fs : String → Bool) (s : EnvState)
    (nm : List (String × String × String)) (category : String)
    (supported skip_list : List String) (extra : String) (n2 : String) :
    (slbResolve (add_lib_preload fs) s nm category supported skip_list extra
        n2).2.1.library_paths = s.library_paths ∧
    (slbResolve (add_lib_preload fs) s nm category supported skip_list extra
        n2).2.1.environ_set = s.environ_set := by
  rw [slbResolve]
  split_ifs <;>
    first
      | exact ⟨(probeLoop_alp_state fs nm skip_list category (supported.headD "")
            (supported.drop 2) s).1,
          (probeLoop_alp_state fs nm skip_list category (supported.headD "")
            (supported.drop 2) s).2.1⟩
      | exact ⟨(add_lib_preload_state fs s (mapToken nm n2)).1,
          (add_lib_preload_state fs s (mapToken nm n2)).2.1⟩
      | exact ⟨rfl, rfl⟩

/-- The full resolution with the preload probe preserves the search paths and
the environment overlay. -/
theorem slb_alp_frame (fs : String → Bool) (isPre : Bool) (s : EnvState)
    (name_input : String) (nm : List (String × String × String))
    (category : String) (supported skip_list : List String) (extra : String) :
    (set_lib_bin_from_list (add_lib_preload fs) isPre s name_input nm category
        supported skip_list extra).2.1.library_paths = s.library_paths ∧
    (set_lib_bin_from_list (add_lib_preload fs) isPre s name_input nm category
        supported skip_list extra).2.1.environ_set = s.environ_set := by
  rw [slb_state]
  by_cases hp : isPre
  · rw [if_pos hp]
    refine ⟨Eq.trans ?_ (slbResolve_alp_frame fs s nm category supported skip_list extra
        (slbNorm name_input category supported skip_list).1).1,
      Eq.trans ?_ (slbResolve_alp_frame fs s nm category supported skip_list extra
        (slbNorm name_input category supported skip_list).1).2⟩
    · exact (applyCleanup_state nm _ _).1
    · exact (applyCleanup_state nm _ _).2
  · rw [if_neg hp]
    exact slbResolve_alp_frame fs s nm category supported skip_list extra
      (slbNorm name_input category supported skip_list).1

/-- Re-running two interleaved distinct-key assignments is absorbed. -/
theorem dictSet_absorb_after (d : List (String × String)) (k1 v1 k2 v2 : String)
    (hne : k1 ≠ k2) :
    dictSet (dictSet (dictSet (dictSet d k1 v1) k2 v2) k1 v1) k2 v2
      = dictSet (dictSet d k1 v1) k2 v2 := by
  have h1 : dictSet (dictSet (dictSet d k1 v1) k2 v2) k1 v1
      = dictSet (dictSet d k1 v1) k2 v2 := by
    apply dictSet_absorb
    · obtain ⟨p, hp, hpk⟩ := dictSet_key_mem d k1 v1
      exact ⟨p, (dictSet_other_key (hpk ▸ hne)).mpr hp, hpk⟩
    · intro p hp hpk
      exact dictSet_key_val p ((dictSet_other_key (hpk ▸ hne)).mp hp) hpk
  rw [h1, dictSet_dictSet_same]

/-- What a successful availability search certifies. -/
theorem firstAvail_some {fs : String → Bool} {s : EnvState}
    {nm : List (String × String × String)} {skip_list : List String}
    {cs : List String} {c : String}
    (h : firstAvail fs s nm skip_list cs = some c) :
    c ∈ cs ∧ c ∉ skip_list ∧ probeOk fs s (mapToken nm c) = true := by
  induction cs with
  | nil => simp [firstAvail] at h
  | cons d cs ih =>
    rw [firstAvail] at h
    by_cases hd : d ∈ skip_list
    · rw [if_pos hd] at h
      obtain ⟨h1, h2, h3⟩ := ih h
      exact ⟨List.mem_cons_of_mem d h1, h2, h3⟩
    · rw [if_neg hd] at h
      by_cases hp : probeOk fs s (mapToken nm d) = true
      · rw [if_pos hp] at h
        obtain rfl := (Option.some.injEq _ _).mp h
        exact ⟨List.mem_cons_self d cs, hd, hp⟩
      · rw [if_neg hp] at h
        obtain ⟨h1, h2, h3⟩ := ih h
        exact ⟨List.mem_cons_of_mem d h1, h2, h3⟩

/-- The availability search is unchanged between two states when failures
transfer and the found candidate (if any) stays available. -/
theorem firstAvail_congr (fs : String → Bool) (s s' : EnvState)
    (nm : List (String × String × String)) (skip_list : List String)
    (cs : List String)
    (hfail : ∀ c ∈ cs, c ∉ skip_list → probeOk fs s (mapToken nm c) = false →
      probeOk fs s' (mapToken nm c) = false)
    (hsucc : ∀ c, firstAvail fs s nm skip_list cs = some c →
      probeOk fs s' (mapToken nm c) = true) :
    firstAvail fs s' nm skip_list cs = firstAvail fs s nm skip_list cs := by
  induction cs with
  | nil => rfl
  | cons d cs ih =>
    by_cases hd : d ∈ skip_list
    · rw [firstAvail, if_pos hd, firstAvail, if_pos hd]
      exact ih (fun c hc => hfail c (List.mem_cons_of_mem d hc))
        (fun c hc => hsucc c (by rw [firstAvail, if_pos hd]; exact hc))
    · by_cases hp : probeOk fs s (mapToken nm d) = true
      · have hfa : firstAvail fs s nm skip_list (d :: cs) = some d := by
          rw [firstAvail, if_neg hd, if_pos hp]
        have hp' : probeOk fs s' (mapToken nm d) = true := hsucc d hfa
        rw [hfa, firstAvail, if_neg hd, if_pos hp']
      · have hpf : probeOk fs s (mapToken nm d) = false := Bool.not_eq_true _ ▸ hp
        have hp' : probeOk fs s' (mapToken nm d) = false := hfail d
          (List.mem_cons_self d cs) hd hpf
        rw [firstAvail, if_neg hd, if_neg (by simp [hp']), firstAvail, if_neg hd,
          if_neg hp]
        exact ih (fun c hc => hfail c (List.mem_cons_of_mem d hc))
          (fun c hc => hsucc c (by rw [firstAvail, if_neg hd, if_neg hp]; exact hc))

/-- An entry matching a kept allocator token matches no other allocator
token. -/
theorem ma_keep_no_match {e c : String}
    (hc : c = "tcmalloc" ∨ c = "jemalloc")
    (hem : pyEndsWith e (libSuffix (mapToken ma_lib_name c)) = true) :
    ∀ x ∈ ma_lib_name, x.1 ≠ c → pyEndsWith e (libSuffix x.2.1) = false := by
  intro x hx hxk
  have hboth := not_both_ma_suffixes e
  rcases hc with rfl | rfl <;>
    · simp only [ma_lib_name, List.mem_cons, List.mem_singleton] at hx
      rcases hx with rfl | hx
      · first
          | exact absurd rfl hxk
          | · cases hh : pyEndsWith e (libSuffix "jemalloc")
              · rfl
              · exact absurd ⟨by simpa [mapToken, ma_lib_name] using hem, hh⟩ hboth
      · rcases hx with rfl | hx
        · first
            | exact absurd rfl hxk
            | · cases hh : pyEndsWith e (libSuffix "tcmalloc")
                · rfl
                · exact absurd ⟨hh, by simpa [mapToken, ma_lib_name] using hem⟩ hboth
        · simp at hx

/-- A library file built for one allocator token never matches the other
allocator token's suffix. -/
theorem ma_libFile_no_cross {c c' : String}
    (hc : c = "tcmalloc" ∨ c = "jemalloc") (hc' : c' = "tcmalloc" ∨ c' = "jemalloc")
    (hne : c' ≠ c) (d : String) :
    pyEndsWith (libFile d (mapToken ma_lib_name c))
      (libSuffix (mapToken ma_lib_name c')) = false := by
  rcases hc with rfl | rfl <;> rcases hc' with rfl | rfl
  · exact absurd rfl hne
  · have h1 : mapToken ma_lib_name "tcmalloc" = "tcmalloc" := by decide
    have h2 : mapToken ma_lib_name "jemalloc" = "jemalloc" := by decide
    rw [h1, h2]
    exact libFile_tcmalloc_not_jemalloc d
  · have h1 : mapToken ma_lib_name "tcmalloc" = "tcmalloc" := by decide
    have h2 : mapToken ma_lib_name "jemalloc" = "jemalloc" := by decide
    rw [h1, h2]
    exact libFile_jemalloc_not_tcmalloc d
  · exact absurd rfl hne

/-- Re-resolving the allocator from any state that carries the search paths
and the preload list left by a first resolution yields the same name: the
first resolution's on-disk findings and cleanup keep the probe outcomes that
decided it. -/
theorem slb_ma_stable (fs : String → Bool) (s s' : EnvState) (inp cat ex : String)
    (skip : List String)
    (hpath : s'.library_paths =
      (set_lib_bin_from_list (add_lib_preload fs) true s inp ma_lib_name cat
        ma_supported skip ex).2.1.library_paths)
    (hpre : s'.ld_preload =
      (set_lib_bin_from_list (add_lib_preload fs) true s inp ma_lib_name cat
        ma_supported skip ex).2.1.ld_preload) :
    (set_lib_bin_from_list (add_lib_preload fs) true s' inp ma_lib_name cat
        ma_supported skip ex).1 =
      (set_lib_bin_from_list (add_lib_preload fs) true s inp ma_lib_name cat
        ma_supported skip ex).1 := by
  have hpath' : s'.library_paths = s.library_paths :=
    hpath.trans (slb_alp_frame fs true s inp ma_lib_name cat ma_supported skip ex).1
  have hr21 : (set_lib_bin_from_list (add_lib_preload fs) true s inp ma_lib_name cat
      ma_supported skip ex).2.1
      = applyCleanup ma_lib_name
          (slbResolve (add_lib_preload fs) s ma_lib_name cat ma_supported skip ex
            (slbNorm inp cat ma_supported skip).1).1
          (slbResolve (add_lib_preload fs) s ma_lib_name cat ma_supported skip ex
            (slbNorm inp cat ma_supported skip).1).2.1 := by
    rw [slb_state, if_pos rfl]
  rw [slb_fst, slb_fst]
  set n2 := (slbNorm inp cat ma_supported skip).1 with hn2
  have hcases : n2 = "auto" ∨ n2 = "default" ∨ n2 = "tcmalloc" ∨ n2 = "jemalloc" := by
    rcases slbNorm_fst_cases inp cat ma_supported skip with h | ⟨h, hm, _⟩
    · exact Or.inl (h.trans (by decide))
    · have : n2 ∈ ma_supported := by rw [hn2, h]; exact hm
      simp only [ma_supported, List.mem_cons, List.mem_singleton] at this
      rcases this with h | h | h | h | h
      · exact Or.inl h
      · exact Or.inr (Or.inl h)
      · exact Or.inr (Or.inr (Or.inl h))
      · exact Or.inr (Or.inr (Or.inr h))
      · simp at h
  have hexplicit : ∀ c, c = "tcmalloc" ∨ c = "jemalloc" → n2 = c →
      (slbResolve (add_lib_preload fs) s' ma_lib_name cat ma_supported skip ex n2).1 =
        (slbResolve (add_lib_preload fs) s ma_lib_name cat ma_supported skip ex n2).1 := by
    intro c hcm hn
    have hg1 : ¬ ((c == ma_supported.headD "") = true) := by
      rcases hcm with rfl | rfl <;> decide
    have hg2 : c ∈ ma_supported.drop 2 := by
      rcases hcm with rfl | rfl <;> decide
    by_cases hb : probeOk fs s (mapToken ma_lib_name c) = true
    · rcases halp : add_lib_preload fs s (mapToken ma_lib_name c) with ⟨b, t⟩
      have hbt : b = true := by
        have hx := add_lib_preload_fst fs s (mapToken ma_lib_name c)
        rw [halp] at hx
        simpa [hb] using hx
      subst hbt
      have e1 : (slbResolve (add_lib_preload fs) s ma_lib_name cat ma_supported skip
          ex c).1 = c := by
        rw [slbResolve, if_neg hg1, if_pos hg2, halp, if_pos rfl]
      have e1s : (slbResolve (add_lib_preload fs) s ma_lib_name cat ma_supported skip
          ex c).2.1 = t := by
        rw [slbResolve, if_neg hg1, if_pos hg2, halp, if_pos rfl]
      obtain ⟨e, he, hem⟩ := add_lib_preload_true_match halp
      have hsurv : e ∈ s'.ld_preload := by
        rw [hpre, hr21, hn, e1, e1s]
        exact mem_applyCleanup_of_no_match he (ma_keep_no_match hcm hem)
      have hb' : probeOk fs s' (mapToken ma_lib_name c) = true :=
        probeOk_true_of_mem fs hsurv hem
      rcases halp' : add_lib_preload fs s' (mapToken ma_lib_name c) with ⟨b', t'⟩
      have hbt' : b' = true := by
        have hx := add_lib_preload_fst fs s' (mapToken ma_lib_name c)
        rw [halp'] at hx
        simpa [hb'] using hx
      subst hbt'
      have e2 : (slbResolve (add_lib_preload fs) s' ma_lib_name cat ma_supported skip
          ex c).1 = c := by
        rw [slbResolve, if_neg hg1, if_pos hg2, halp', if_pos rfl]
      rw [hn, e1, e2]
    · have hbf : probeOk fs s (mapToken ma_lib_name c) = false := Bool.not_eq_true _ ▸ hb
      have halp : add_lib_preload fs s (mapToken ma_lib_name c) = (false, s) :=
        add_lib_preload_false fs s _ hbf
      have e1 : (slbResolve (add_lib_preload fs) s ma_lib_name cat ma_supported skip
          ex c).1 = "default" := by
        rw [slbResolve, if_neg hg1, if_pos hg2, halp, if_neg (by simp)]
        exact (by decide : (ma_supported.drop 1).headD "" = "default")
      have e1s : (slbResolve (add_lib_preload fs) s ma_lib_name cat ma_supported skip
          ex c).2.1 = s := by
        rw [slbResolve, if_neg hg1, if_pos hg2, halp, if_neg (by simp)]
      have hb' : probeOk fs s' (mapToken ma_lib_name c) = false := by
        refine probeOk_false_mono fs hpath' ?_ hbf
        intro e he
        rw [hpre, hr21, hn, e1, e1s] at he
        exact Or.inl (mem_of_mem_applyCleanup he)
      have halp' : add_lib_preload fs s' (mapToken ma_lib_name c) = (false, s') :=
        add_lib_preload_false fs s' _ hb'
      have e2 : (slbResolve (add_lib_preload fs) s' ma_lib_name cat ma_supported skip
          ex c).1 = "default" := by
        rw [slbResolve, if_neg hg1, if_pos hg2, halp', if_neg (by simp)]
        exact (by decide : (ma_supported.drop 1).headD "" = "default")
      rw [hn, e1, e2]
  rcases hcases with hn | hn | hn | hn
  · -- the auto branch
    have hg1 : (("auto" : String) == ma_supported.headD "") = true := by decide
    have hauto : ∀ x : EnvState,
        (slbResolve (add_lib_preload fs) x ma_lib_name cat ma_supported skip ex
          "auto").1 =
        (if (probeLoop (add_lib_preload fs) ma_lib_name skip cat "auto"
              ["tcmalloc", "jemalloc"] x).1 == "auto" then "default"
         else (probeLoop (add_lib_preload fs) ma_lib_name skip cat "auto"
              ["tcmalloc", "jemalloc"] x).1) := by
      intro x
      rw [slbResolve, if_pos hg1,
        (by decide : ma_supported.headD "" = "auto"),
        (by decide : ma_supported.drop 2 = ["tcmalloc", "jemalloc"]),
        (by decide : (ma_supported.drop 1).headD "" = "default")]
      split_ifs <;> rfl
    have hautoS : (slbResolve (add_lib_preload fs) s ma_lib_name cat ma_supported skip
        ex "auto").2.1 =
        (probeLoop (add_lib_preload fs) ma_lib_name skip cat "auto"
          ["tcmalloc", "jemalloc"] s).2.1 := by
      rw [slbResolve, if_pos hg1,
        (by decide : ma_supported.headD "" = "auto"),
        (by decide : ma_supported.drop 2 = ["tcmalloc", "jemalloc"]),
        (by decide : (ma_supported.drop 1).headD "" = "default")]
      split_ifs <;> rfl
    have hplf := probeLoop_alp_fst fs ma_lib_name skip cat "auto"
      ["tcmalloc", "jemalloc"] s
    have hplf' := probeLoop_alp_fst fs ma_lib_name skip cat "auto"
      ["tcmalloc", "jemalloc"] s'
    suffices hfa : firstAvail fs s' ma_lib_name skip ["tcmalloc", "jemalloc"]
        = firstAvail fs s ma_lib_name skip ["tcmalloc", "jemalloc"] by
      rw [hn, hauto s', hauto s, hplf, hplf', hfa]
    rcases hfa0 : firstAvail fs s ma_lib_name skip ["tcmalloc", "jemalloc"]
      with _ | c
    · -- nothing was available: the probe loop left the state alone
      have hpl0 := probeLoop_alp_none fs ma_lib_name skip cat "auto"
        ["tcmalloc", "jemalloc"] s hfa0
      have hsub : ∀ e ∈ s'.ld_preload, e ∈ s.ld_preload := by
        intro e he
        rw [hpre, hr21, hn, hautoS, hpl0] at he
        exact mem_of_mem_applyCleanup he
      rw [← hfa0]
      apply firstAvail_congr
      · intro c hc hcsk hcf
        exact probeOk_false_mono fs hpath' (fun e he => Or.inl (hsub e he)) hcf
      · intro c hc
        rw [hfa0] at hc
        exact absurd hc (by simp)
    · obtain ⟨hcm0, hcsk0, hcp0⟩ := firstAvail_some hfa0
      have hcm : c = "tcmalloc" ∨ c = "jemalloc" := by
        simpa using hcm0
      have hcne : c ≠ "auto" := by
        rcases hcm with rfl | rfl <;> decide
      have hprfst : (probeLoop (add_lib_preload fs) ma_lib_name skip cat "auto"
          ["tcmalloc", "jemalloc"] s).1 = c := by
        rw [hplf, hfa0]
        rfl
      have hfound := probeLoop_alp_found fs ma_lib_name skip cat "auto"
        ["tcmalloc", "jemalloc"] s (by rw [hprfst]; exact hcne)
      rw [hprfst] at hfound
      obtain ⟨e, he, hem⟩ := hfound
      have hkeep : (slbResolve (add_lib_preload fs) s ma_lib_name cat ma_supported
          skip ex "auto").1 = c := by
        rw [hauto s, hprfst]
        simp [hcne]
      have hsurv : e ∈ s'.ld_preload := by
        rw [hpre, hr21, hn, hautoS, hkeep]
        exact mem_applyCleanup_of_no_match he (ma_keep_no_match hcm hem)
      have hsub : ∀ e₀ ∈ s'.ld_preload,
          e₀ ∈ s.ld_preload ∨ ∃ d, e₀ = libFile d (mapToken ma_lib_name c) := by
        intro e₀ he₀
        rw [hpre, hr21, hn, hautoS] at he₀
        have he₁ := mem_of_mem_applyCleanup he₀
        have hst := (probeLoop_alp_state fs ma_lib_name skip cat "auto"
          ["tcmalloc", "jemalloc"] s).2.2
        rw [hprfst] at hst
        exact hst e₀ he₁
      rw [← hfa0]
      apply firstAvail_congr
      · intro c' hc' hcsk' hcf
        have hc'm : c' = "tcmalloc" ∨ c' = "jemalloc" := by simpa using hc'
        have hc'ne : c' ≠ c := by
          intro hcc
          rw [hcc, hcp0] at hcf
          cases hcf
        refine probeOk_false_mono fs hpath' ?_ hcf
        intro e₀ he₀
        rcases hsub e₀ he₀ with h | ⟨d, rfl⟩
        · exact Or.inl h
        · exact Or.inr (ma_libFile_no_cross hcm hc'm hc'ne d)
      · intro c₀ hc₀
        rw [hfa0] at hc₀
        obtain rfl := (Option.some.injEq _ _).mp hc₀
        exact probeOk_true_of_mem fs hsurv hem
  · -- normalized to the default entry: no probing on either side
    have e0 : ∀ x : EnvState,
        (slbResolve (add_lib_preload fs) x ma_lib_name cat ma_supported skip ex
          "default").1 = "default" := by
      intro x
      rw [slbResolve, if_neg (by decide), if_neg (by decide)]
    rw [hn, e0 s, e0 s']
  · exact hexplicit "tcmalloc" (Or.inl rfl) hn
  · exact hexplicit "jemalloc" (Or.inr rfl) hn

/-- Re-resolving the OpenMP runtime from any state that carries the search
paths and the preload list left by a first resolution yields the same name. -/
theorem slb_omp_stable (fs : String → Bool) (s s' : EnvState) (inp cat ex : String)
    (hpath : s'.library_paths =
      (set_lib_bin_from_list (add_lib_preload fs) true s inp omp_lib_name cat
        omp_supported [] ex).2.1.library_paths)
    (hpre : s'.ld_preload =
      (set_lib_bin_from_list (add_lib_preload fs) true s inp omp_lib_name cat
        omp_supported [] ex).2.1.ld_preload) :
    (set_lib_bin_from_list (add_lib_preload fs) true s' inp omp_lib_name cat
        omp_supported [] ex).1 =
      (set_lib_bin_from_list (add_lib_preload fs) true s inp omp_lib_name cat
        omp_supported [] ex).1 := by
  have hpath' : s'.library_paths = s.library_paths :=
    hpath.trans (slb_alp_frame fs true s inp omp_lib_name cat omp_supported [] ex).1
  have hr21 : (set_lib_bin_from_list (add_lib_preload fs) true s inp omp_lib_name cat
      omp_supported [] ex).2.1
      = applyCleanup omp_lib_name
          (slbResolve (add_lib_preload fs) s omp_lib_name cat omp_supported [] ex
            (slbNorm inp cat omp_supported []).1).1
          (slbResolve (add_lib_preload fs) s omp_lib_name cat omp_supported [] ex
            (slbNorm inp cat omp_supported []).1).2.1 := by
    rw [slb_state, if_pos rfl]
  rw [slb_fst, slb_fst]
  set n2 := (slbNorm inp cat omp_supported []).1 with hn2
  have hcases : n2 = "auto" ∨ n2 = "default" ∨ n2 = "intel" := by
    rcases slbNorm_fst_cases inp cat omp_supported [] with h | ⟨h, hm, _⟩
    · exact Or.inl (h.trans (by decide))
    · have : n2 ∈ omp_supported := by rw [hn2, h]; exact hm
      simp only [omp_supported, List.mem_cons, List.mem_singleton] at this
      rcases this with h | h | h | h
      · exact Or.inl h
      · exact Or.inr (Or.inl h)
      · exact Or.inr (Or.inr h)
      · simp at h
  have homp_keep : ∀ e₀ : String, ∀ x ∈ omp_lib_name, x.1 ≠ "intel" →
      pyEndsWith e₀ (libSuffix x.2.1) = false := by
    intro e₀ x hx hxk
    simp only [omp_lib_name, List.mem_singleton] at hx
    exact absurd (by rw [hx]) hxk
  rcases hcases with hn | hn | hn
  · -- the auto branch over the single candidate
    have hg1 : (("auto" : String) == omp_supported.headD "") = true := by decide
    have hauto : ∀ x : EnvState,
        (slbResolve (add_lib_preload fs) x omp_lib_name cat omp_supported [] ex
          "auto").1 =
        (if (probeLoop (add_lib_preload fs) omp_lib_name [] cat "auto"
              ["intel"] x).1 == "auto" then "default"
         else (probeLoop (add_lib_preload fs) omp_lib_name [] cat "auto"
              ["intel"] x).1) := by
      intro x
      rw [slbResolve, if_pos hg1,
        (by decide : omp_supported.headD "" = "auto"),
        (by decide : omp_supported.drop 2 = ["intel"]),
        (by decide : (omp_supported.drop 1).headD "" = "default")]
      split_ifs <;> rfl
    have hautoS : (slbResolve (add_lib_preload fs) s omp_lib_name cat omp_supported
        [] ex "auto").2.1 =
        (probeLoop (add_lib_preload fs) omp_lib_name [] cat "auto" ["intel"] s).2.1 := by
      rw [slbResolve, if_pos hg1,
        (by decide : omp_supported.headD "" = "auto"),
        (by decide : omp_supported.drop 2 = ["intel"]),
        (by decide : (omp_supported.drop 1).headD "" = "default")]
      split_ifs <;> rfl
    have hplf := probeLoop_alp_fst fs omp_lib_name [] cat "auto" ["intel"] s
    have hplf' := probeLoop_alp_fst fs omp_lib_name [] cat "auto" ["intel"] s'
    suffices hfa : firstAvail fs s' omp_lib_name [] ["intel"]
        = firstAvail fs s omp_lib_name [] ["intel"] by
      rw [hn, hauto s', hauto s, hplf, hplf', hfa]
    rcases hfa0 : firstAvail fs s omp_lib_name [] ["intel"] with _ | c
    · have hpl0 := probeLoop_alp_none fs omp_lib_name [] cat "auto" ["intel"] s hfa0
      have hsub : ∀ e ∈ s'.ld_preload, e ∈ s.ld_preload := by
        intro e he
        rw [hpre, hr21, hn, hautoS, hpl0] at he
        exact mem_of_mem_applyCleanup he
      rw [← hfa0]
      apply firstAvail_congr
      · intro c hc hcsk hcf
        exact probeOk_false_mono fs hpath' (fun e he => Or.inl (hsub e he)) hcf
      · intro c hc
        rw [hfa0] at hc
        exact absurd hc (by simp)
    · obtain ⟨hcm0, hcsk0, hcp0⟩ := firstAvail_some hfa0
      have hcm : c = "intel" := by simpa using hcm0
      subst hcm
      have hprfst : (probeLoop (add_lib_preload fs) omp_lib_name [] cat "auto"
          ["intel"] s).1 = "intel" := by
        rw [hplf, hfa0]
        rfl
      have hfound := probeLoop_alp_found fs omp_lib_name [] cat "auto"
        ["intel"] s (by rw [hprfst]; decide)
      rw [hprfst] at hfound
      obtain ⟨e, he, hem⟩ := hfound
      have hkeep : (slbResolve (add_lib_preload fs) s omp_lib_name cat omp_supported
          [] ex "auto").1 = "intel" := by
        rw [hauto s, hprfst]
        simp
      have hsurv : e ∈ s'.ld_preload := by
        rw [hpre, hr21, hn, hautoS, hkeep]
        exact mem_applyCleanup_of_no_match he (homp_keep e)
      rw [← hfa0]
      apply firstAvail_congr
      · intro c' hc' hcsk' hcf
        have hc'i : c' = "intel" := by simpa using hc'
        rw [hc'i, hcp0] at hcf
        cases hcf
      · intro c₀ hc₀
        rw [hfa0] at hc₀
        obtain rfl := (Option.some.injEq _ _).mp hc₀
        exact probeOk_true_of_mem fs hsurv hem
  · have e0 : ∀ x : EnvState,
        (slbResolve (add_lib_preload fs) x omp_lib_name cat omp_supported [] ex
          "default").1 = "default" := by
      intro x
      rw [slbResolve, if_neg (by decide), if_neg (by decide)]
    rw [hn, e0 s, e0 s']
  · -- the explicit intel request
    have hg1 : ¬ ((("intel" : String) == omp_supported.headD "") = true) := by decide
    have hg2 : ("intel" : String) ∈ omp_supported.drop 2 := by decide
    by_cases hb : probeOk fs s (mapToken omp_lib_name "intel") = true
    · rcases halp : add_lib_preload fs s (mapToken omp_lib_name "intel") with ⟨b, t⟩
      have hbt : b = true := by
        have hx := add_lib_preload_fst fs s (mapToken omp_lib_name "intel")
        rw [halp] at hx
        simpa [hb] using hx
      subst hbt
      have e1 : (slbResolve (add_lib_preload fs) s omp_lib_name cat omp_supported []
          ex "intel").1 = "intel" := by
        rw [slbResolve, if_neg hg1, if_pos hg2, halp, if_pos rfl]
      have e1s : (slbResolve (add_lib_preload fs) s omp_lib_name cat omp_supported []
          ex "intel").2.1 = t := by
        rw [slbResolve, if_neg hg1, if_pos hg2, halp, if_pos rfl]
      obtain ⟨e, he, hem⟩ := add_lib_preload_true_match halp
      have hsurv : e ∈ s'.ld_preload := by
        rw [hpre, hr21, hn, e1, e1s]
        exact mem_applyCleanup_of_no_match he (homp_keep e)
      have hb' : probeOk fs s' (mapToken omp_lib_name "intel") = true :=
        probeOk_true_of_mem fs hsurv hem
      rcases halp' : add_lib_preload fs s' (mapToken omp_lib_name "intel") with ⟨b', t'⟩
      have hbt' : b' = true := by
        have hx := add_lib_preload_fst fs s' (mapToken omp_lib_name "intel")
        rw [halp'] at hx
        simpa [hb'] using hx
      subst hbt'
      have e2 : (slbResolve (add_lib_preload fs) s' omp_lib_name cat omp_supported []
          ex "intel").1 = "intel" := by
        rw [slbResolve, if_neg hg1, if_pos hg2, halp', if_pos rfl]
      rw [hn, e1, e2]
    · have hbf : probeOk fs s (mapToken omp_lib_name "intel") = false :=
        Bool.not_eq_true _ ▸ hb
      have halp : add_lib_preload fs s (mapToken omp_lib_name "intel") = (false, s) :=
        add_lib_preload_false fs s _ hbf
      have e1 : (slbResolve (add_lib_preload fs) s omp_lib_name cat omp_supported []
          ex "intel").1 = "default" := by
        rw [slbResolve, if_neg hg1, if_pos hg2, halp, if_neg (by simp)]
        exact (by decide : (omp_supported.drop 1).headD "" = "default")
      have e1s : (slbResolve (add_lib_preload fs) s omp_lib_name cat omp_supported []
          ex "intel").2.1 = s := by
        rw [slbResolve, if_neg hg1, if_pos hg2, halp, if_neg (by simp)]
      have hb' : probeOk fs s' (mapToken omp_lib_name "intel") = false := by
        refine probeOk_false_mono fs hpath' ?_ hbf
        intro e he
        rw [hpre, hr21, hn, e1, e1s] at he
        exact Or.inl (mem_of_mem_applyCleanup he)
      have halp' : add_lib_preload fs s' (mapToken omp_lib_name "intel") = (false, s') :=
        add_lib_preload_false fs s' _ hb'
      have e2 : (slbResolve (add_lib_preload fs) s' omp_lib_name cat omp_supported []
          ex "intel").1 = "default" := by
        rw [slbResolve, if_neg hg1, if_pos hg2, halp', if_neg (by simp)]
        exact (by decide : (omp_supported.drop 1).headD "" = "default")
      rw [hn, e1, e2]

/-- The resolved name of `set_memory_allocator` is the resolver's answer. -/
theorem sma_fst (fs : String → Bool) (env : String → Option String) (x : EnvState)
    (i : String) (b : Bool) (skip : List String) :
    (set_memory_allocator fs env x i b skip).1 =
      (set_lib_bin_from_list (add_lib_preload fs) true x i ma_lib_name
        "memory allocator" ma_supported skip "This may drop the performance.").1 := by
  simp only [set_memory_allocator]
  split_ifs <;> rfl

/-- The state of `set_memory_allocator`: the resolver's state, with the
`MALLOC_CONF` assignment on top when jemalloc was resolved. -/
theorem sma_state (fs : String → Bool) (env : String → Option String) (x : EnvState)
    (i : String) (b : Bool) (skip : List String) :
    (set_memory_allocator fs env x i b skip).2.1 =
      (if ((set_lib_bin_from_list (add_lib_preload fs) true x i ma_lib_name
            "memory allocator" ma_supported skip
            "This may drop the performance.").1 == "jemalloc") = true then
        (add_env env (set_lib_bin_from_list (add_lib_preload fs) true x i ma_lib_name
            "memory allocator" ma_supported skip
            "This may drop the performance.").2.1 "MALLOC_CONF"
          (if b then mallocConfBenchmark else mallocConfGeneral)).1
      else
        (set_lib_bin_from_list (add_lib_preload fs) true x i ma_lib_name
          "memory allocator" ma_supported skip
          "This may drop the performance.").2.1) := by
  simp only [set_memory_allocator]
  split_ifs <;> rfl

/-- The resolved name of `set_omp_runtime` is the resolver's answer. -/
theorem somp_fst (fs : String → Bool) (env : String → Option String) (x : EnvState)
    (i : String) (kaf : Bool) :
    (set_omp_runtime fs env x i kaf).1 =
      (set_lib_bin_from_list (add_lib_preload fs) true x i omp_lib_name
        "OpenMP runtime" omp_supported [] "").1 := by
  simp only [set_omp_runtime]
  split_ifs <;> rfl

/-- The state of `set_omp_runtime`: the resolver's state with the variable
assignments the resolved runtime calls for. -/
theorem somp_state (fs : String → Bool) (env : String → Option String) (x : EnvState)
    (i : String) (kaf : Bool) :
    (set_omp_runtime fs env x i kaf).2.1 =
      (if ((set_lib_bin_from_list (add_lib_preload fs) true x i omp_lib_name
            "OpenMP runtime" omp_supported [] "").1 == "intel") = true then
        (add_env env
          (if kaf then
            (add_env env (set_lib_bin_from_list (add_lib_preload fs) true x i
                omp_lib_name "OpenMP runtime" omp_supported [] "").2.1
              "KMP_AFFINITY" "granularity=fine,compact,1,0").1
          else
            (set_lib_bin_from_list (add_lib_preload fs) true x i omp_lib_name
              "OpenMP runtime" omp_supported [] "").2.1)
          "KMP_BLOCKTIME" "1").1
      else if ((set_lib_bin_from_list (add_lib_preload fs) true x i omp_lib_name
            "OpenMP runtime" omp_supported [] "").1 == "default") = true then
        (add_env env
          (add_env env (set_lib_bin_from_list (add_lib_preload fs) true x i
              omp_lib_name "OpenMP runtime" omp_supported [] "").2.1
            "OMP_SCHEDULE" "STATIC").1
          "OMP_PROC_BIND" "CLOSE").1
      else
        (set_lib_bin_from_list (add_lib_preload fs) true x i omp_lib_name
          "OpenMP runtime" omp_supported [] "").2.1) := by
  simp only [set_omp_runtime]
  split_ifs <;> rfl

/-- The value `add_env` records for a key. -/
def envResolved (env : String → Option String) (k v : String) : String :=
  let a := pyGetenv env k
  if a ≠ "" ∧ a ≠ v then a else v

/-- `add_env` performs exactly one dictionary assignment of the resolved
value, touching nothing else in the state. -/
theorem add_env_state (env : String → Option String) (s : EnvState) (k v : String) :
    (add_env env s k v).1.environ_set = dictSet s.environ_set k (envResolved env k v) ∧
    (add_env env s k v).1.ld_preload = s.ld_preload ∧
    (add_env env s k v).1.library_paths = s.library_paths := by
  rw [add_env, envResolved]
  by_cases h : pyGetenv env k ≠ "" ∧ pyGetenv env k ≠ v
  · simp [h]
  · simp [h]

end Lemmas

section Claims

/-- Equality of parser outcomes is decidable. -/
instance : DecidableEq (Except String (Finset Nat)) := fun a b =>
  match a, b with
  | Except.error x, Except.error y =>
    if h : x = y then isTrue (by rw [h]) else isFalse (fun hc => h (by injection hc))
  | Except.ok x, Except.ok y =>
    if h : x = y then isTrue (by rw [h]) else isFalse (fun hc => h (by injection hc))
  | Except.error _, Except.ok _ => isFalse (fun hc => Except.noConfusion hc)
  | Except.ok _, Except.error _ => isFalse (fun hc => Except.noConfusion hc)

/-- C6: `parse_list_argument` maps a comma-separated string of integer tokens
and hyphenated low-high range tokens to the deduplicated set of all integers
named or spanned — `"0,2-4,7"` yields `{0,2,3,4,7}`, `"1,1,1"` yields `{1}`,
`""` yields the empty set — and it fails when the low bound of a range
exceeds the high bound (`"5-3"`) or when a hyphenated token does not split
into exactly two integer parts (`"1-2-3"`). -/
theorem C6_parse_list_argument :
    parse_list_argument "0,2-4,7" = Except.ok ({0, 2, 3, 4, 7} : Finset Nat) ∧
    parse_list_argument "1,1,1" = Except.ok ({1} : Finset Nat) ∧
    parse_list_argument "" = Except.ok (∅ : Finset Nat) ∧
    parse_list_argument "5-3" =
      Except.error "Begining index of a range must be <= ending index." ∧
    parse_list_argument "1-2-3" = Except.error "Invalid range format detected." := by
  exact ⟨by decide, by decide, by decide, by decide, by decide⟩

/-- C5: the code misses the claimed exclusivity post-condition.  With an
ambient preload list holding two tcmalloc entries and one jemalloc entry,
resolving the allocator to jemalloc leaves `/b/libtcmalloc.so` in the preload
list although its token belongs to the non-resolved tcmalloc candidate: the
cleanup removes entries while iterating, so the entry after a removed one is
skipped. -/
theorem C5_cleanup_misses_entry :
    (set_memory_allocator (fun _ => false) (fun _ => none)
        ⟨[], [], ["/a/libtcmalloc.so", "/b/libtcmalloc.so", "/c/libjemalloc.so"]⟩
        "jemalloc" false []).1 = "jemalloc" ∧
    "/b/libtcmalloc.so" ∈ (set_memory_allocator (fun _ => false) (fun _ => none)
        ⟨[], [], ["/a/libtcmalloc.so", "/b/libtcmalloc.so", "/c/libjemalloc.so"]⟩
        "jemalloc" false []).2.1.ld_preload ∧
    pyEndsWith "/b/libtcmalloc.so" (libSuffix (mapToken ma_lib_name "tcmalloc")) = true := by
  decide

/-- C8 (counterexample): on a launcher with no injected logger, `verbose`
with the unrecognized level `debug` raises nothing and still emits the
message by printing it, contradicting the claim that every launcher instance
raises on an unrecognized level. -/
theorem C8_print_fallback_counter :
    verbose false "debug" "message" = Except.ok ("print", "message") ∧
    "debug" ≠ "warning" ∧ "debug" ≠ "info" :=
  ⟨rfl, by decide, by decide⟩

/-- C8 (amended): when a logger is injected, `verbose` with a level other
than `warning` or `info` raises the unrecognized-level assertion and emits
nothing, while the recognized levels only log; without a logger the message
is printed whatever the level and nothing raises. -/
theorem C8_verbose_assert (level msg : String)
    (h1 : level ≠ "warning") (h2 : level ≠ "info") :
    verbose true level msg = Except.error (verboseAssertMsg level) ∧
    verbose false level msg = Except.ok ("print", msg) ∧
    verbose true "warning" msg = Except.ok ("warning", msg) ∧
    verbose true "info" msg = Except.ok ("info", msg) := by
  refine ⟨?_, by simp [verbose], by simp [verbose], by simp [verbose]⟩
  simp [verbose, h1, h2]

/-- C8 (witness): the amended statement at level `debug`. -/
theorem C8_verbose_assert_witness :
    verbose true "debug" "x" = Except.error (verboseAssertMsg "debug") ∧
    verbose false "debug" "x" = Except.ok ("print", "x") ∧
    verbose true "warning" "x" = Except.ok ("warning", "x") ∧
    verbose true "info" "x" = Except.ok ("info", "x") :=
  C8_verbose_assert "debug" "x" (by decide) (by decide)

/-- C4: on a conflict — ambient value non-empty and different from the
desired one — `add_env` records the ambient value verbatim into the overlay
and emits exactly one warning whose text carries both the ambient and the
desired value; otherwise it records the desired value. -/
theorem C4_add_env_conflict (env : String → Option String) (s : EnvState)
    (name value : String) :
    (pyGetenv env name ≠ "" → pyGetenv env name ≠ value →
      (add_env env s name value).1.environ_set
          = dictSet s.environ_set name (pyGetenv env name) ∧
      (add_env env s name value).2
          = [("warning", addEnvConflictMsg name (pyGetenv env name) value)] ∧
      ∃ p q r, addEnvConflictMsg name (pyGetenv env name) value
          = p ++ pyGetenv env name ++ q ++ value ++ r) ∧
    ((pyGetenv env name = "" ∨ pyGetenv env name = value) →
      (add_env env s name value).1.environ_set = dictSet s.environ_set name value ∧
      (add_env env s name value).2 = []) := by
  constructor
  · intro h1 h2
    have hc : pyGetenv env name ≠ "" ∧ pyGetenv env name ≠ value := ⟨h1, h2⟩
    refine ⟨?_, ?_, ?_⟩
    · simp [add_env, hc]
    · simp [add_env, hc]
    · exact ⟨name ++ " in environment variable is ",
        " while the value you would like to set                     is ",
        ". Use the exsiting value.", rfl⟩
  · intro h
    have hn : ¬ (pyGetenv env name ≠ "" ∧ pyGetenv env name ≠ value) := by
      rcases h with h | h <;> simp [h]
    refine ⟨?_, ?_⟩ <;> simp [add_env, hn]

/-- C4 (witness): ambient `OMP_SCHEDULE=DYNAMIC` against desired `STATIC`
records `DYNAMIC` with the single two-value warning. -/
theorem C4_add_env_conflict_witness :
    (add_env (fun n => if n = "OMP_SCHEDULE" then some "DYNAMIC" else none)
        ⟨[], [], []⟩ "OMP_SCHEDULE" "STATIC").1.environ_set
      = [("OMP_SCHEDULE", "DYNAMIC")] ∧
    (add_env (fun n => if n = "OMP_SCHEDULE" then some "DYNAMIC" else none)
        ⟨[], [], []⟩ "OMP_SCHEDULE" "STATIC").2
      = [("warning", addEnvConflictMsg "OMP_SCHEDULE" "DYNAMIC" "STATIC")] := by
  have h := (C4_add_env_conflict
      (fun n => if n = "OMP_SCHEDULE" then some "DYNAMIC" else none)
      ⟨[], [], []⟩ "OMP_SCHEDULE" "STATIC").1 (by decide) (by decide)
  refine ⟨h.1.trans (by decide), h.2.1.trans ?_⟩
  have ha : pyGetenv (fun n => if n = "OMP_SCHEDULE" then some "DYNAMIC" else none)
      "OMP_SCHEDULE" = "DYNAMIC" := by decide
  rw [ha]

/-- C10: when the ambient variable is unset or set to the empty string,
`add_env` records the desired value and emits no warning — an empty ambient
value is overridden rather than winning. -/
theorem C10_add_env_empty_ambient (env : String → Option String) (s : EnvState)
    (name value : String) (h : env name = none ∨ env name = some "") :
    (add_env env s name value).1.environ_set = dictSet s.environ_set name value ∧
    (add_env env s name value).2 = [] := by
  have ha : pyGetenv env name = "" := by
    rcases h with h | h <;> simp [pyGetenv, h]
  rw [add_env]
  simp only [ha]
  simp

/-- C10 (witness): both the unset case and the explicit empty-string case at
concrete inputs. -/
theorem C10_add_env_empty_ambient_witness :
    (add_env (fun _ => none) ⟨[], [], []⟩ "OMP_SCHEDULE" "STATIC").1.environ_set
      = [("OMP_SCHEDULE", "STATIC")] ∧
    (add_env (fun n => if n = "OMP_SCHEDULE" then some "" else none)
        ⟨[], [], []⟩ "OMP_SCHEDULE" "STATIC").1.environ_set
      = [("OMP_SCHEDULE", "STATIC")] ∧
    (add_env (fun n => if n = "OMP_SCHEDULE" then some "" else none)
        ⟨[], [], []⟩ "OMP_SCHEDULE" "STATIC").2 = [] := by
  have h1 := C10_add_env_empty_ambient (fun _ => none) ⟨[], [], []⟩
    "OMP_SCHEDULE" "STATIC" (Or.inl rfl)
  have h2 := C10_add_env_empty_ambient
    (fun n => if n = "OMP_SCHEDULE" then some "" else none) ⟨[], [], []⟩
    "OMP_SCHEDULE" "STATIC" (Or.inr (by decide))
  exact ⟨h1.1.trans (by decide), h2.1.trans (by decide), h2.2⟩

/-- The probe loop yields the sentinel or a candidate whose probe succeeded. -/
theorem probeLoop_fst_cases (fn : EnvState → String → Bool × EnvState)
    (nm : List (String × String × String)) (skip_list : List String)
    (category autoName : String) (cs : List String) (s : EnvState) :
    (probeLoop fn nm skip_list category autoName cs s).1 = autoName ∨
    ((probeLoop fn nm skip_list category autoName cs s).1 ∈ cs ∧
      ∃ t u, fn t (mapToken nm
        (probeLoop fn nm skip_list category autoName cs s).1) = (true, u)) := by
  induction cs generalizing s with
  | nil => exact Or.inl rfl
  | cons c cs ih =>
    by_cases hc : c ∈ skip_list
    · rw [probeLoop, if_pos hc]
      rcases ih s with h | ⟨h1, h2⟩
      · exact Or.inl h
      · exact Or.inr ⟨List.mem_cons_of_mem c h1, h2⟩
    · rcases hf : fn s (mapToken nm c) with ⟨b, s1⟩
      cases b
      · rw [probeLoop, if_neg hc, hf]
        simp only
        rcases ih s1 with h | ⟨h1, h2⟩
        · exact Or.inl h
        · exact Or.inr ⟨List.mem_cons_of_mem c h1, h2⟩
      · rw [probeLoop, if_neg hc, hf]
        simp only
        exact Or.inr ⟨List.mem_cons_self c cs, s, s1, hf⟩

/-- C1: over a supported list of the shape `auto :: default :: candidates`
whose default entry is not the sentinel, the resolved name is never `auto`:
it is the default entry or a concrete candidate whose probe returned true. -/
theorem C1_resolved_never_auto (fn : EnvState → String → Bool × EnvState)
    (isPre : Bool) (s : EnvState) (name_input : String)
    (nm : List (String × String × String)) (category dflt : String)
    (cands skip_list : List String) (extra : String) (hd : dflt ≠ "auto") :
    (set_lib_bin_from_list fn isPre s name_input nm category
        ("auto" :: dflt :: cands) skip_list extra).1 ≠ "auto" ∧
    ((set_lib_bin_from_list fn isPre s name_input nm category
        ("auto" :: dflt :: cands) skip_list extra).1 = dflt ∨
      ((set_lib_bin_from_list fn isPre s name_input nm category
          ("auto" :: dflt :: cands) skip_list extra).1 ∈ cands ∧
        ∃ t u, fn t (mapToken nm (set_lib_bin_from_list fn isPre s name_input nm category
            ("auto" :: dflt :: cands) skip_list extra).1) = (true, u))) := by
  rw [slb_fst]
  have hcases := slbNorm_fst_cases name_input category ("auto" :: dflt :: cands) skip_list
  set n2 := (slbNorm name_input category ("auto" :: dflt :: cands) skip_list).1 with hn2
  simp only [slbResolve, List.headD_cons, List.drop_succ_cons, List.drop_zero]
  by_cases ha : n2 = "auto"
  · rw [if_pos (by simp [ha] : (n2 == "auto") = true)]
    rcases hpr : probeLoop fn nm skip_list category "auto" cands s with ⟨np, sp, lp⟩
    have hplc := probeLoop_fst_cases fn nm skip_list category "auto" cands s
    rw [hpr] at hplc
    simp only at hplc
    by_cases hnp : np = "auto"
    · rw [if_pos (by simp [hnp] : (((np, sp, lp) : String × EnvState × LogTrace).1 == "auto") = true)]
      exact ⟨hd, Or.inl rfl⟩
    · rw [if_neg (by simp [hnp] : ¬ (((np, sp, lp) : String × EnvState × LogTrace).1 == "auto") = true)]
      rcases hplc with h | ⟨h1, h2⟩
      · exact absurd h hnp
      · exact ⟨hnp, Or.inr ⟨h1, h2⟩⟩
  · rw [if_neg (by simp [ha])]
    by_cases hcand : n2 ∈ cands
    · rw [if_pos hcand]
      by_cases hb : (fn s (mapToken nm n2)).1 = true
      · rw [if_pos hb]
        exact ⟨ha, Or.inr ⟨hcand, s, (fn s (mapToken nm n2)).2, Prod.ext hb rfl⟩⟩
      · rw [if_neg hb]
        exact ⟨hd, Or.inl rfl⟩
    · rw [if_neg hcand]
      have hmem : n2 ∈ ("auto" :: dflt :: cands) := by
        rcases hcases with h | ⟨h, hm, _⟩
        · exact absurd (by simpa using h) ha
        · rw [h]; exact hm
      have hdf : n2 = dflt := by
        rcases List.mem_cons.mp hmem with h | hmem2
        · exact absurd h ha
        · rcases List.mem_cons.mp hmem2 with h | h
          · exact h
          · exact absurd h hcand
      exact ⟨ha, Or.inl hdf⟩

/-- C1 (witness): an always-succeeding probe over a two-candidate list. -/
theorem C1_resolved_never_auto_witness :
    (set_lib_bin_from_list (fun st _ => (true, st)) false ⟨[], [], []⟩ "AUTO"
        [("x", "t", "")] "c" ("auto" :: "default" :: ["x"]) [] "").1 ≠ "auto" ∧
    ((set_lib_bin_from_list (fun st _ => (true, st)) false ⟨[], [], []⟩ "AUTO"
        [("x", "t", "")] "c" ("auto" :: "default" :: ["x"]) [] "").1 = "default" ∨
      ((set_lib_bin_from_list (fun st _ => (true, st)) false ⟨[], [], []⟩ "AUTO"
          [("x", "t", "")] "c" ("auto" :: "default" :: ["x"]) [] "").1 ∈ ["x"] ∧
        ∃ t u, (fun (st : EnvState) (_ : String) => (true, st)) t
          (mapToken [("x", "t", "")]
            (set_lib_bin_from_list (fun st _ => (true, st)) false ⟨[], [], []⟩ "AUTO"
              [("x", "t", "")] "c" ("auto" :: "default" :: ["x"]) [] "").1) = (true, u))) :=
  C1_resolved_never_auto (fun st _ => (true, st)) false ⟨[], [], []⟩ "AUTO"
    [("x", "t", "")] "c" "default" ["x"] [] "" (by decide)

/-- A successful spec probe adopts a member of the candidate list. -/
theorem specAutoProbe_some_mem {fn : EnvState → String → Bool × EnvState}
    {nm : List (String × String × String)} {skip_list : List String}
    {cs : List String} {s s1 : EnvState} {c : String}
    (h : specAutoProbe fn nm skip_list cs s = (some c, s1)) : c ∈ cs := by
  induction cs generalizing s with
  | nil => simp [specAutoProbe] at h
  | cons d cs ih =>
    rw [specAutoProbe] at h
    by_cases hd : d ∈ skip_list
    · rw [if_pos hd] at h
      exact List.mem_cons_of_mem d (ih h)
    · rw [if_neg hd] at h
      simp only at h
      by_cases hp : (fn s (mapToken nm d)).1 = true
      · rw [if_pos hp] at h
        have := ((Prod.mk.injEq _ _ _ _).mp h).1
        simp only [Option.some.injEq] at this
        rw [← this]
        exact List.mem_cons_self d cs
      · rw [if_neg hp] at h
        exact List.mem_cons_of_mem d (ih h)

/-- C2: when the normalized name is the sentinel `auto`, the resolution
follows the spec's probe policy `specAutoProbe` — candidates at indices two
and up probed in order, skip-listed ones skipped, first success adopted with
no later probe — and when no probe succeeds the default entry is returned
together with a warning that names the missing candidates and carries the
search-path list. -/
theorem C2_auto_first_success (fn : EnvState → String → Bool × EnvState)
    (isPre : Bool) (s : EnvState) (name_input : String)
    (nm : List (String × String × String)) (category dflt : String)
    (cands skip_list : List String) (extra : String)
    (hin : pyToLower name_input = "auto")
    (hskip : "auto" ∉ skip_list) (hc : "auto" ∉ cands) :
    (∀ c s1, specAutoProbe fn nm skip_list cands s = (some c, s1) →
      (set_lib_bin_from_list fn isPre s name_input nm category
          ("auto" :: dflt :: cands) skip_list extra).1 = c ∧
      (set_lib_bin_from_list fn isPre s name_input nm category
          ("auto" :: dflt :: cands) skip_list extra).2.2
        = [("info", probeFoundMsg "auto" c category)]) ∧
    (∀ s1, specAutoProbe fn nm skip_list cands s = (none, s1) →
      (set_lib_bin_from_list fn isPre s name_input nm category
          ("auto" :: dflt :: cands) skip_list extra).1 = dflt ∧
      (set_lib_bin_from_list fn isPre s name_input nm category
          ("auto" :: dflt :: cands) skip_list extra).2.2
        = (if 0 < cands.length then
            [("warning", notFoundMsg cands category s1.library_paths)]
          else []) ++
          [("info", useMsg dflt category
            (if extra ≠ "" then " " ++ extra else extra))] ∧
      ∃ pre, notFoundMsg cands category s1.library_paths
        = pre ++ " in " ++ pyStrListRepr s1.library_paths ++ ".") := by
  have hnorm : slbNorm name_input category ("auto" :: dflt :: cands) skip_list
      = ("auto", []) := by
    rw [slbNorm, if_pos (hin ▸ List.mem_cons_self _ _), if_neg (hin ▸ hskip), hin]
  have hpl := probeLoop_spec fn nm skip_list category "auto" cands s
  constructor
  · intro c s1 hsp
    have hcm : c ∈ cands := specAutoProbe_some_mem hsp
    have hcne : c ≠ "auto" := fun h => hc (h ▸ hcm)
    rw [hsp] at hpl
    simp only at hpl
    constructor
    · rw [slb_fst, hnorm]
      simp only [slbResolve, List.headD_cons, List.drop_succ_cons, List.drop_zero]
      rw [if_pos (by simp : (("auto" : String) == "auto") = true), hpl]
      rw [if_neg (by simp [hcne] :
        ¬ (((c, s1, [("info", probeFoundMsg "auto" c category)])
            : String × EnvState × LogTrace).1 == "auto") = true)]
    · rw [slb_log, hnorm]
      simp only [slbResolve, List.headD_cons, List.drop_succ_cons, List.drop_zero]
      rw [if_pos (by simp : (("auto" : String) == "auto") = true), hpl]
      rw [if_neg (by simp [hcne] :
        ¬ (((c, s1, [("info", probeFoundMsg "auto" c category)])
            : String × EnvState × LogTrace).1 == "auto") = true)]
      simp
  · intro s1 hsp
    rw [hsp] at hpl
    simp only at hpl
    refine ⟨?_, ?_, ⟨notFoundCoreMsg cands category, rfl⟩⟩
    · rw [slb_fst, hnorm]
      simp only [slbResolve, List.headD_cons, List.drop_succ_cons, List.drop_zero]
      rw [if_pos (by simp : (("auto" : String) == "auto") = true), hpl]
      rw [if_pos (by simp : ((("auto", s1, ([] : LogTrace))
        : String × EnvState × LogTrace).1 == "auto") = true)]
    · rw [slb_log, hnorm]
      simp only [slbResolve, List.headD_cons, List.drop_succ_cons, List.drop_zero]
      rw [if_pos (by simp : (("auto" : String) == "auto") = true), hpl]
      rw [if_pos (by simp : ((("auto", s1, ([] : LogTrace))
        : String × EnvState × LogTrace).1 == "auto") = true)]
      simp

/-- C2 (witness): a probe succeeding exactly on the tcmalloc token adopts
tcmalloc from the allocator preference list with the adoption info line. -/
theorem C2_auto_first_success_witness :
    (set_lib_bin_from_list (fun st t => (t == "tcmalloc", st)) false ⟨[], [], []⟩
        "auto" ma_lib_name "memory allocator"
        ("auto" :: "default" :: ["tcmalloc", "jemalloc"]) [] "").1 = "tcmalloc" ∧
    (set_lib_bin_from_list (fun st t => (t == "tcmalloc", st)) false ⟨[], [], []⟩
        "auto" ma_lib_name "memory allocator"
        ("auto" :: "default" :: ["tcmalloc", "jemalloc"]) [] "").2.2
      = [("info", probeFoundMsg "auto" "tcmalloc" "memory allocator")] :=
  (C2_auto_first_success (fun st t => (t == "tcmalloc", st)) false ⟨[], [], []⟩
      "auto" ma_lib_name "memory allocator" "default" ["tcmalloc", "jemalloc"] [] ""
      (by decide) (by decide) (by decide)).1
    "tcmalloc" ⟨[], [], []⟩ (by decide)

/-- C3: an explicit jemalloc request with no matching preload entry and no
library file in any search path probes only that candidate, falls back to
`default`, emits the warning carrying jemalloc's non-empty install hint
followed by the default-choice info line, and leaves no `MALLOC_CONF` entry
in the overlay. -/
theorem C3_jemalloc_missing (fs : String → Bool) (env : String → Option String)
    (s : EnvState) (benchmark : Bool) (skip_list : List String)
    (h1 : ∀ e ∈ s.ld_preload, pyEndsWith e (libSuffix "jemalloc") = false)
    (h2 : ∀ p ∈ s.library_paths, fs (libFile p "jemalloc") = false)
    (h3 : s.environ_set.lookup "MALLOC_CONF" = none)
    (h4 : "jemalloc" ∉ skip_list) :
    (set_memory_allocator fs env s "jemalloc" benchmark skip_list).1 = "default" ∧
    (set_memory_allocator fs env s "jemalloc" benchmark skip_list).2.2
      = [("warning", unableMsg "jemalloc" "memory allocator" s.library_paths
          " You can install it with \"conda install -c conda-forge jemalloc\"."),
         ("info", useMsg "default" "memory allocator" " This may drop the performance.")] ∧
    (set_memory_allocator fs env s "jemalloc" benchmark skip_list).2.1.environ_set.lookup
        "MALLOC_CONF" = none ∧
    mapHint ma_lib_name "jemalloc" ≠ "" := by
  have hpo : probeOk fs s "jemalloc" = false := by
    rw [probeOk, Bool.or_eq_false_iff, preloadMatch, fsHit, List.any_eq_false,
      List.any_eq_false]
    exact ⟨fun e he => by simp [h1 e he], fun p hp => by simp [h2 p hp]⟩
  have hff : add_lib_preload fs s "jemalloc" = (false, s) :=
    add_lib_preload_false fs s "jemalloc" hpo
  have htok : mapToken ma_lib_name "jemalloc" = "jemalloc" := by decide
  have hnorm : slbNorm "jemalloc" "memory allocator" ma_supported skip_list
      = ("jemalloc", []) := by
    have hlow : pyToLower "jemalloc" = "jemalloc" := by decide
    have hmem : pyToLower "jemalloc" ∈ ma_supported := by decide
    rw [slbNorm, if_pos hmem, if_neg (hlow ▸ h4), hlow]
  have hres : slbResolve (add_lib_preload fs) s ma_lib_name "memory allocator"
      ma_supported skip_list "This may drop the performance." "jemalloc"
      = ("default", s,
         [("warning", unableMsg "jemalloc" "memory allocator" s.library_paths
            " You can install it with \"conda install -c conda-forge jemalloc\"."),
          ("info", useMsg "default" "memory allocator"
            " This may drop the performance.")]) := by
    have hh : mapHint ma_lib_name "jemalloc" = "conda install -c conda-forge jemalloc" := by
      decide
    have hdd : (ma_supported.drop 1).headD "" = "default" := by decide
    rw [slbResolve,
      if_neg (by decide : ¬ (("jemalloc" : String) == ma_supported.headD "") = true),
      if_pos (by decide : ("jemalloc" : String) ∈ ma_supported.drop 2),
      htok, hff,
      if_neg (by simp : ¬ (((false, s) : Bool × EnvState).1 = true)),
      hh, hdd,
      if_pos (by decide : ("conda install -c conda-forge jemalloc" : String) ≠ ""),
      if_pos (by decide : ("This may drop the performance." : String) ≠ ""),
      (by decide : (" You can install it with \"" ++ "conda install -c conda-forge jemalloc"
          ++ "\"." : String) = " You can install it with \"conda install -c conda-forge jemalloc\"."),
      (by decide : ((" " ++ "This may drop the performance.") : String)
          = " This may drop the performance.")]
  have hr1 : (set_lib_bin_from_list (add_lib_preload fs) true s "jemalloc"
      ma_lib_name "memory allocator" ma_supported skip_list
      "This may drop the performance.").1 = "default" := by
    rw [slb_fst, hnorm, hres]
  have hr2 : (set_lib_bin_from_list (add_lib_preload fs) true s "jemalloc"
      ma_lib_name "memory allocator" ma_supported skip_list
      "This may drop the performance.").2.1
      = applyCleanup ma_lib_name "default" s := by
    rw [slb_state, if_pos rfl, hnorm, hres]
  have hr3 : (set_lib_bin_from_list (add_lib_preload fs) true s "jemalloc"
      ma_lib_name "memory allocator" ma_supported skip_list
      "This may drop the performance.").2.2
      = [("warning", unableMsg "jemalloc" "memory allocator" s.library_paths
          " You can install it with \"conda install -c conda-forge jemalloc\"."),
         ("info", useMsg "default" "memory allocator"
          " This may drop the performance.")] := by
    rw [slb_log, hnorm, hres]
    simp
  have hguard : ((set_lib_bin_from_list (add_lib_preload fs) true s "jemalloc"
      ma_lib_name "memory allocator" ma_supported skip_list
      "This may drop the performance.").1 == "jemalloc") = false := by
    rw [hr1]; decide
  rw [set_memory_allocator]
  simp only [hguard, Bool.false_eq_true, if_false]
  refine ⟨hr1, hr3, ?_, by decide⟩
  rw [hr2]
  have := (applyCleanup_state ma_lib_name "default" s).2
  rw [this]
  exact h3

/-- C3 (witness): the fallback at a concrete fresh launcher state. -/
theorem C3_jemalloc_missing_witness :
    (set_memory_allocator (fun _ => false) (fun _ => none) ⟨["/usr/lib/"], [], []⟩
        "jemalloc" false []).1 = "default" ∧
    (set_memory_allocator (fun _ => false) (fun _ => none) ⟨["/usr/lib/"], [], []⟩
        "jemalloc" false []).2.2
      = [("warning", unableMsg "jemalloc" "memory allocator" ["/usr/lib/"]
          " You can install it with \"conda install -c conda-forge jemalloc\"."),
         ("info", useMsg "default" "memory allocator" " This may drop the performance.")] ∧
    (set_memory_allocator (fun _ => false) (fun _ => none) ⟨["/usr/lib/"], [], []⟩
        "jemalloc" false []).2.1.environ_set.lookup "MALLOC_CONF" = none ∧
    mapHint ma_lib_name "jemalloc" ≠ "" :=
  C3_jemalloc_missing (fun _ => false) (fun _ => none) ⟨["/usr/lib/"], [], []⟩
    false [] (by decide) (by decide) (by decide) (by decide)

/-- C7 (counterexample): with a skip list containing the sentinel `auto`
itself, requesting the unknown name `foobar` emits two normalization warnings
where the `auto` request emits one — and the one it emits names `auto`, not
`foobar` — so the two logs do not differ by a single additional warning: no
one-element deletion of the first log yields the second. -/
theorem C7_skip_auto_counter :
    (∀ i, i < 4 →
      ((set_lib_bin_from_list (fun st _ => (false, st)) false ⟨[], [], []⟩ "foobar"
          ma_lib_name "memory allocator" ma_supported ["auto"] "").2.2).eraseIdx i ≠
        (set_lib_bin_from_list (fun st _ => (false, st)) false ⟨[], [], []⟩ "auto"
          ma_lib_name "memory allocator" ma_supported ["auto"] "").2.2) ∧
    ((set_lib_bin_from_list (fun st _ => (false, st)) false ⟨[], [], []⟩ "foobar"
        ma_lib_name "memory allocator" ma_supported ["auto"] "").2.2).length = 4 ∧
    ((set_lib_bin_from_list (fun st _ => (false, st)) false ⟨[], [], []⟩ "auto"
        ma_lib_name "memory allocator" ma_supported ["auto"] "").2.2).length = 3 := by
  decide

/-- C7 (amended): provided the sentinel `auto` is not itself in the skip
list, a requested name that is unknown or skip-listed resolves exactly as an
`auto` request over the same state — same resolved name, same final state —
and the log differs only by one leading warning naming the invalid or
excluded input. -/
theorem C7_invalid_equiv_auto (fn : EnvState → String → Bool × EnvState)
    (isPre : Bool) (s : EnvState) (name_input : String)
    (nm : List (String × String × String)) (category : String)
    (tail skip_list : List String) (extra : String)
    (hskip : "auto" ∉ skip_list)
    (hbad : pyToLower name_input ∉ ("auto" :: tail) ∨ pyToLower name_input ∈ skip_list) :
    (set_lib_bin_from_list fn isPre s name_input nm category ("auto" :: tail)
        skip_list extra).1 =
      (set_lib_bin_from_list fn isPre s "auto" nm category ("auto" :: tail)
        skip_list extra).1 ∧
    (set_lib_bin_from_list fn isPre s name_input nm category ("auto" :: tail)
        skip_list extra).2.1 =
      (set_lib_bin_from_list fn isPre s "auto" nm category ("auto" :: tail)
        skip_list extra).2.1 ∧
    ∃ w : String × String, w.1 = "warning" ∧
      (set_lib_bin_from_list fn isPre s name_input nm category ("auto" :: tail)
          skip_list extra).2.2 =
        w :: (set_lib_bin_from_list fn isPre s "auto" nm category ("auto" :: tail)
          skip_list extra).2.2 ∧
      (w.2 = unknownNameMsg category name_input "auto" ("auto" :: tail) ∨
       w.2 = skippedNameMsg category name_input "auto" ("auto" :: tail)) := by
  have hnauto : slbNorm "auto" category ("auto" :: tail) skip_list = ("auto", []) := by
    have hlow : pyToLower "auto" = "auto" := by decide
    rw [slbNorm, if_pos (hlow ▸ List.mem_cons_self _ _), if_neg (hlow ▸ hskip), hlow]
  by_cases hsup : pyToLower name_input ∈ ("auto" :: tail)
  · have hbsk : pyToLower name_input ∈ skip_list := by
      rcases hbad with h | h
      · exact absurd hsup h
      · exact h
    have hn1 : slbNorm name_input category ("auto" :: tail) skip_list
        = ("auto", [("warning", skippedNameMsg category name_input "auto" ("auto" :: tail))]) := by
      rw [slbNorm, if_pos hsup, if_pos hbsk, List.headD_cons]
    refine ⟨?_, ?_, ⟨("warning", skippedNameMsg category name_input "auto" ("auto" :: tail)),
      rfl, ?_, Or.inr rfl⟩⟩
    · rw [slb_fst, slb_fst, hn1, hnauto]
    · rw [slb_state, slb_state, hn1, hnauto]
    · rw [slb_log, slb_log, hn1, hnauto]
      simp
  · have hn1 : slbNorm name_input category ("auto" :: tail) skip_list
        = ("auto", [("warning", unknownNameMsg category name_input "auto" ("auto" :: tail))]) := by
      rw [slbNorm, if_neg hsup, List.headD_cons, if_neg hskip]
    refine ⟨?_, ?_, ⟨("warning", unknownNameMsg category name_input "auto" ("auto" :: tail)),
      rfl, ?_, Or.inl rfl⟩⟩
    · rw [slb_fst, slb_fst, hn1, hnauto]
    · rw [slb_state, slb_state, hn1, hnauto]
    · rw [slb_log, slb_log, hn1, hnauto]
      simp

/-- C7 (witness): unknown allocator name `foobar` against `auto` on a fresh
state, with an empty skip list. -/
theorem C7_invalid_equiv_auto_witness :
    (set_lib_bin_from_list (fun st _ => (false, st)) false ⟨[], [], []⟩ "foobar"
        ma_lib_name "memory allocator" ("auto" :: ["default", "tcmalloc", "jemalloc"])
        [] "").1 =
      (set_lib_bin_from_list (fun st _ => (false, st)) false ⟨[], [], []⟩ "auto"
        ma_lib_name "memory allocator" ("auto" :: ["default", "tcmalloc", "jemalloc"])
        [] "").1 ∧
    (set_lib_bin_from_list (fun st _ => (false, st)) false ⟨[], [], []⟩ "foobar"
        ma_lib_name "memory allocator" ("auto" :: ["default", "tcmalloc", "jemalloc"])
        [] "").2.1 =
      (set_lib_bin_from_list (fun st _ => (false, st)) false ⟨[], [], []⟩ "auto"
        ma_lib_name "memory allocator" ("auto" :: ["default", "tcmalloc", "jemalloc"])
        [] "").2.1 ∧
    ∃ w : String × String, w.1 = "warning" ∧
      (set_lib_bin_from_list (fun st _ => (false, st)) false ⟨[], [], []⟩ "foobar"
          ma_lib_name "memory allocator" ("auto" :: ["default", "tcmalloc", "jemalloc"])
          [] "").2.2 =
        w :: (set_lib_bin_from_list (fun st _ => (false, st)) false ⟨[], [], []⟩ "auto"
          ma_lib_name "memory allocator" ("auto" :: ["default", "tcmalloc", "jemalloc"])
          [] "").2.2 ∧
      (w.2 = unknownNameMsg "memory allocator" "foobar" "auto"
          ("auto" :: ["default", "tcmalloc", "jemalloc"]) ∨
       w.2 = skippedNameMsg "memory allocator" "foobar" "auto"
          ("auto" :: ["default", "tcmalloc", "jemalloc"])) :=
  C7_invalid_equiv_auto (fun st _ => (false, st)) false ⟨[], [], []⟩ "foobar"
    ma_lib_name "memory allocator" ["default", "tcmalloc", "jemalloc"] [] ""
    (by decide) (Or.inl (by decide))

/-- C9: calling `set_memory_allocator` (or `set_omp_runtime`) a second time
with identical arguments, ambient environment and filesystem returns the
same resolved name as the first call and leaves the environment overlay with
contents identical to those after the first call. -/
theorem C9_resolution_idempotent (fs : String → Bool) (env : String → Option String)
    (s : EnvState) (ma_in : String) (benchmark : Bool) (skip : List String)
    (omp_in : String) (kaf : Bool) :
    ((set_memory_allocator fs env
        (set_memory_allocator fs env s ma_in benchmark skip).2.1
        ma_in benchmark skip).1
      = (set_memory_allocator fs env s ma_in benchmark skip).1 ∧
     (set_memory_allocator fs env
        (set_memory_allocator fs env s ma_in benchmark skip).2.1
        ma_in benchmark skip).2.1.environ_set
      = (set_memory_allocator fs env s ma_in benchmark skip).2.1.environ_set) ∧
    ((set_omp_runtime fs env (set_omp_runtime fs env s omp_in kaf).2.1
        omp_in kaf).1
      = (set_omp_runtime fs env s omp_in kaf).1 ∧
     (set_omp_runtime fs env (set_omp_runtime fs env s omp_in kaf).2.1
        omp_in kaf).2.1.environ_set
      = (set_omp_runtime fs env s omp_in kaf).2.1.environ_set) := by
  constructor
  · -- the memory-allocator category
    set s2 := (set_memory_allocator fs env s ma_in benchmark skip).2.1 with hs2
    have hs2path : s2.library_paths =
        (set_lib_bin_from_list (add_lib_preload fs) true s ma_in ma_lib_name
          "memory allocator" ma_supported skip
          "This may drop the performance.").2.1.library_paths := by
      rw [hs2, sma_state]
      split_ifs <;>
        first
          | exact (add_env_state env _ "MALLOC_CONF" _).2.2
          | rfl
    have hs2pre : s2.ld_preload =
        (set_lib_bin_from_list (add_lib_preload fs) true s ma_in ma_lib_name
          "memory allocator" ma_supported skip
          "This may drop the performance.").2.1.ld_preload := by
      rw [hs2, sma_state]
      split_ifs <;>
        first
          | exact (add_env_state env _ "MALLOC_CONF" _).2.1
          | rfl
    have hstab := slb_ma_stable fs s s2 ma_in "memory allocator"
      "This may drop the performance." skip hs2path hs2pre
    constructor
    · rw [sma_fst fs env s2, sma_fst fs env s, hstab]
    · rw [sma_state fs env s2]
      by_cases hj : ((set_lib_bin_from_list (add_lib_preload fs) true s ma_in
          ma_lib_name "memory allocator" ma_supported skip
          "This may drop the performance.").1 == "jemalloc") = true
      · rw [if_pos (by rw [hstab]; exact hj),
          (add_env_state env _ "MALLOC_CONF" _).1,
          (slb_alp_frame fs true s2 ma_in ma_lib_name "memory allocator"
            ma_supported skip "This may drop the performance.").2]
        conv_rhs => rw [hs2, sma_state fs env s, if_pos hj,
          (add_env_state env _ "MALLOC_CONF" _).1]
        conv_lhs => rw [hs2, sma_state fs env s, if_pos hj,
          (add_env_state env _ "MALLOC_CONF" _).1]
        exact dictSet_dictSet_same _ _ _
      · rw [if_neg (by rw [hstab]; exact hj),
          (slb_alp_frame fs true s2 ma_in ma_lib_name "memory allocator"
            ma_supported skip "This may drop the performance.").2]
  · -- the OpenMP-runtime category
    set s3 := (set_omp_runtime fs env s omp_in kaf).2.1 with hs3
    have hs3path : s3.library_paths =
        (set_lib_bin_from_list (add_lib_preload fs) true s omp_in omp_lib_name
          "OpenMP runtime" omp_supported [] "").2.1.library_paths := by
      rw [hs3, somp_state]
      split_ifs <;>
        first
          | exact ((add_env_state env _ "KMP_BLOCKTIME" _).2.2).trans
              (add_env_state env _ "KMP_AFFINITY" _).2.2
          | exact (add_env_state env _ "KMP_BLOCKTIME" _).2.2
          | exact ((add_env_state env _ "OMP_PROC_BIND" _).2.2).trans
              (add_env_state env _ "OMP_SCHEDULE" _).2.2
          | rfl
    have hs3pre : s3.ld_preload =
        (set_lib_bin_from_list (add_lib_preload fs) true s omp_in omp_lib_name
          "OpenMP runtime" omp_supported [] "").2.1.ld_preload := by
      rw [hs3, somp_state]
      split_ifs <;>
        first
          | exact ((add_env_state env _ "KMP_BLOCKTIME" _).2.1).trans
              (add_env_state env _ "KMP_AFFINITY" _).2.1
          | exact (add_env_state env _ "KMP_BLOCKTIME" _).2.1
          | exact ((add_env_state env _ "OMP_PROC_BIND" _).2.1).trans
              (add_env_state env _ "OMP_SCHEDULE" _).2.1
          | rfl
    have hstab := slb_omp_stable fs s s3 omp_in "OpenMP runtime" "" hs3path hs3pre
    constructor
    · rw [somp_fst fs env s3, somp_fst fs env s, hstab]
    · rw [somp_state fs env s3]
      by_cases hi : ((set_lib_bin_from_list (add_lib_preload fs) true s omp_in
          omp_lib_name "OpenMP runtime" omp_supported [] "").1 == "intel") = true
      · rw [if_pos (by rw [hstab]; exact hi),
          (add_env_state env _ "KMP_BLOCKTIME" _).1]
        by_cases hkaf : kaf
        · rw [if_pos hkaf, (add_env_state env _ "KMP_AFFINITY" _).1,
            (slb_alp_frame fs true s3 omp_in omp_lib_name "OpenMP runtime"
              omp_supported [] "").2]
          conv_rhs => rw [hs3, somp_state fs env s, if_pos hi, if_pos hkaf,
            (add_env_state env _ "KMP_BLOCKTIME" _).1,
            (add_env_state env _ "KMP_AFFINITY" _).1]
          conv_lhs => rw [hs3, somp_state fs env s, if_pos hi, if_pos hkaf,
            (add_env_state env _ "KMP_BLOCKTIME" _).1,
            (add_env_state env _ "KMP_AFFINITY" _).1]
          exact dictSet_absorb_after _ _ _ _ _ (by decide)
        · rw [if_neg hkaf,
            (slb_alp_frame fs true s3 omp_in omp_lib_name "OpenMP runtime"
              omp_supported [] "").2]
          conv_rhs => rw [hs3, somp_state fs env s, if_pos hi, if_neg hkaf,
            (add_env_state env _ "KMP_BLOCKTIME" _).1]
          conv_lhs => rw [hs3, somp_state fs env s, if_pos hi, if_neg hkaf,
            (add_env_state env _ "KMP_BLOCKTIME" _).1]
          exact dictSet_dictSet_same _ _ _
      · by_cases hd : ((set_lib_bin_from_list (add_lib_preload fs) true s omp_in
            omp_lib_name "OpenMP runtime" omp_supported [] "").1 == "default") = true
        · rw [if_neg (by rw [hstab]; exact hi), if_pos (by rw [hstab]; exact hd),
            (add_env_state env _ "OMP_PROC_BIND" _).1,
            (add_env_state env _ "OMP_SCHEDULE" _).1,
            (slb_alp_frame fs true s3 omp_in omp_lib_name "OpenMP runtime"
              omp_supported [] "").2]
          conv_rhs => rw [hs3, somp_state fs env s, if_neg hi, if_pos hd,
            (add_env_state env _ "OMP_PROC_BIND" _).1,
            (add_env_state env _ "OMP_SCHEDULE" _).1]
          conv_lhs => rw [hs3, somp_state fs env s, if_neg hi, if_pos hd,
            (add_env_state env _ "OMP_PROC_BIND" _).1,
            (add_env_state env _ "OMP_SCHEDULE" _).1]
          exact dictSet_absorb_after _ _ _ _ _ (by decide)
        · rw [if_neg (by rw [hstab]; exact hi), if_neg (by rw [hstab]; exact hd),
            (slb_alp_frame fs true s3 omp_in omp_lib_name "OpenMP runtime"
              omp_supported [] "").2]

end Claims

end Launch
